import Mathlib

/-!
Verification of the free-v2ray node pipeline.

This file shallowly embeds the Python sources of the repository
(`parser.py`, `proxy_node.py`, `utils/utils.py`, `tester.py`) in Lean 4 and
proves or refutes the frozen claims about them.

Modelling conventions:
* Python values flowing through the pipeline (node dictionaries, YAML and
  JSON documents, proxy-core configurations) are modelled by the inductive
  type `PyVal`; dictionaries are association lists in insertion order,
  matching CPython dict semantics.
* Python exceptions are modelled with `Except PyErr`; a bare
  `try/except` is an explicit match on the `Except` value.
* CPython standard-library functions whose behaviour the claims depend on
  (base64, UTF-8 codecs, `urllib.parse.urlsplit` accessors, `parse_qs`,
  `unquote`, `str.split` and friends, `str(int)`) are implemented
  concretely below, following the documented CPython semantics.
  Third-party or stdlib parsers whose internals are irrelevant to every
  claim (`yaml.safe_load`, `json.loads`, the `re` module except for the
  character-class substitutions of the Base64 strategy) are passed in as
  explicit function parameters, exactly at the call sites where the Python
  code invokes them.
-/

set_option maxRecDepth 4000

/-! ## Python runtime model: errors and values -/

/-- The exception kinds raised by the code paths modelled here. -/
inductive PyErr where
  | keyError
  | valueError
  | typeError
  | attributeError
  | jsonDecodeError
  | unicodeDecodeError
  | binasciiError
  | runtimeError
  | yamlError
  | reqError
  | otherError
deriving DecidableEq

/-- A Python value as it appears in this pipeline: `None`, booleans,
integers, strings, lists and (insertion-ordered) dictionaries with string
keys. -/
inductive PyVal where
  | none
  | bool (b : Bool)
  | int (i : Int)
  | str (s : String)
  | list (l : List PyVal)
  | dict (d : List (String × PyVal))

/-- Python truthiness (`bool(v)`). -/
def pyTruthy : PyVal → Bool
  | .none => false
  | .bool b => b
  | .int i => i != 0
  | .str s => s ≠ ""
  | .list l => !l.isEmpty
  | .dict d => !d.isEmpty

/-- `v == s` for a Python value `v` and a string literal `s`: true exactly
when `v` is that string. -/
def pyEqStr : PyVal → String → Bool
  | .str t, s => t = s
  | _, _ => false

/-- Association-list lookup, first binding wins (CPython dicts have unique
keys; every dict built by this code does, so first-match is exact). -/
def alistGet : List (String × PyVal) → String → Option PyVal
  | [], _ => Option.none
  | (k, v) :: rest, key => if k = key then some v else alistGet rest key

/-- `d[key]` on a dict: `KeyError` when absent, `TypeError` when the value
is not subscriptable by a string key in the ways this code uses it. -/
def pyDictReq : PyVal → String → Except PyErr PyVal
  | .dict d, key =>
      match alistGet d key with
      | some v => .ok v
      | Option.none => .error .keyError
  | _, _ => .error .typeError

/-- `v.get(key, default)`: `AttributeError` when `v` is not a dict. -/
def pyDictGetD : PyVal → String → PyVal → Except PyErr PyVal
  | .dict d, key, dflt =>
      match alistGet d key with
      | some v => .ok v
      | Option.none => .ok dflt
  | _, _, _ => .error .attributeError

/-- `key in v` for dict `v` (only called on dicts in the modelled paths;
on non-dicts the membership the code performs is the Python `in` operator,
which for strings is substring search — handled separately where needed). -/
def pyDictHasKey : PyVal → String → Bool
  | .dict d, key => (alistGet d key).isSome
  | _, _ => false

/-- Update `d[key] = v` on an association list: replaces the first binding
in place, appends when absent (CPython dict assignment semantics). -/
def alistSet : List (String × PyVal) → String → PyVal → List (String × PyVal)
  | [], key, v => [(key, v)]
  | (k, w) :: rest, key, v =>
      if k = key then (k, v) :: rest else (k, w) :: alistSet rest key v

/-- `d[key] = v` on a `PyVal`; identity on non-dicts (never reached on
non-dicts in the modelled paths). -/
def dictSet : PyVal → String → PyVal → PyVal
  | .dict d, key, v => .dict (alistSet d key v)
  | v, _, _ => v

/-! ## Decimal numerals: `str(int)` and `int(str)`

The model uses its own printer and parser for decimal numerals (rather
than Lean's `toString`) so that the round-trip lemmas needed by the codec
claims can be proved by elementary induction. `natToStr` agrees with
CPython `str` on naturals and `intToStr` on all ints. -/

/-- Digit character for `n < 10`. -/
def digitChar (n : Nat) : Char := Char.ofNat (48 + n)

/-- Fuel-driven decimal printer (fuel ≥ number of digits suffices;
callers pass `n + 1`). -/
def natToDigits : Nat → Nat → List Char
  | 0, _ => []
  | fuel + 1, n =>
      if n < 10 then [digitChar n]
      else natToDigits fuel (n / 10) ++ [digitChar (n % 10)]

/-- `str(n)` for a natural number. -/
def natToStr (n : Nat) : String := ⟨natToDigits (n + 1) n⟩

/-- `str(i)` for a Python int. -/
def intToStr (i : Int) : String :=
  match i with
  | .ofNat n => natToStr n
  | .negSucc n => "-" ++ natToStr (n + 1)

/-- Is a decimal digit? -/
def isDigitCh (c : Char) : Bool := 48 ≤ c.toNat ∧ c.toNat ≤ 57

/-- Value of a list of digit characters (most significant first),
accumulator form. -/
def digitsVal (acc : Nat) : List Char → Nat
  | [] => acc
  | c :: rest => digitsVal (acc * 10 + (c.toNat - 48)) rest

/-- Python whitespace for `str.strip()` / `int()` stripping
(space, tab, LF, VT, FF, CR). -/
def isPySpace (c : Char) : Bool :=
  c.toNat = 32 ∨ (9 ≤ c.toNat ∧ c.toNat ≤ 13)

/-- `str.strip()` on a character list. -/
def stripChars (l : List Char) : List Char :=
  (l.dropWhile isPySpace).reverse.dropWhile isPySpace |>.reverse

/-- `int(s)`: strip whitespace, optional sign, then decimal digits;
`ValueError` otherwise. (Underscore grouping, accepted by CPython between
digits, never occurs in the modelled inputs.) -/
def pyIntCore : List Char → Except PyErr Int
  | [] => .error .valueError
  | c :: rest =>
      if c = '-' then
        (if rest ≠ [] ∧ rest.all isDigitCh then .ok (-(digitsVal 0 rest : Int))
         else .error .valueError)
      else if c = '+' then
        (if rest ≠ [] ∧ rest.all isDigitCh then .ok (digitsVal 0 rest : Int)
         else .error .valueError)
      else
        (if (c :: rest).all isDigitCh then .ok (digitsVal 0 (c :: rest) : Int)
         else .error .valueError)

def pyIntStr (s : String) : Except PyErr Int := pyIntCore (stripChars s.data)

/-- `int(v)` on a Python value (int passes through, strings are parsed,
booleans coerce, everything else is a `TypeError`). -/
def pyIntVal : PyVal → Except PyErr Int
  | .int i => .ok i
  | .str s => pyIntStr s
  | .bool b => .ok (if b then 1 else 0)
  | _ => .error .typeError

/-- `str(v)` as used in f-strings (lists/dicts never reach an f-string in
the proved paths; a placeholder rendering keeps the function total). -/
def pyStr : PyVal → String
  | .none => "None"
  | .bool b => if b then "True" else "False"
  | .int i => intToStr i
  | .str s => s
  | .list _ => "[...]"
  | .dict _ => "\x7b...\x7d"

/-! ## String scaffolding (Python `str` methods on `List Char`) -/

/-- Does `pre` start `l`? -/
def listStartsWith : List Char → List Char → Bool
  | _, [] => true
  | [], _ :: _ => false
  | c :: cs, p :: ps => c = p ∧ listStartsWith cs ps

/-- Is `needle` a contiguous sublist of `hay`? (Python `in`.) -/
def listHasSub (hay needle : List Char) : Bool :=
  match hay with
  | [] => listStartsWith [] needle
  | _ :: rest => listStartsWith hay needle || listHasSub rest needle

/-- Split at the first occurrence of `sep` (nonempty): `split(sep, 1)`
when the separator occurs; `none` when it does not. -/
def splitFirstSub (l sep : List Char) : Option (List Char × List Char) :=
  match l with
  | [] => if listStartsWith [] sep then some ([], []) else Option.none
  | c :: rest =>
      if listStartsWith (c :: rest) sep then some ([], (c :: rest).drop sep.length)
      else match splitFirstSub rest sep with
           | some (a, b) => some (c :: a, b)
           | Option.none => Option.none

/-- Split at the last occurrence of character `sep`: `rsplit(sep, 1)` when
present. -/
def splitLastChar (l : List Char) (sep : Char) : Option (List Char × List Char) :=
  match splitFirstSub l.reverse [sep] with
  | some (a, b) => some (b.reverse, a.reverse)
  | Option.none => Option.none

/-- `s.split(sep)` for a single-character separator: every occurrence,
empty pieces kept (Python semantics). -/
def splitAllChar (l : List Char) (sep : Char) : List (List Char) :=
  match l with
  | [] => [[]]
  | c :: rest =>
      let r := splitAllChar rest sep
      if c = sep then [] :: r
      else match r with
           | [] => [[c]]
           | piece :: more => (c :: piece) :: more

/-- String wrappers. -/
def strStartsWith (s p : String) : Bool := listStartsWith s.data p.data

def strHasSub (s sub : String) : Bool := listHasSub s.data sub.data

def strSplit1 (s sep : String) : Option (String × String) :=
  match splitFirstSub s.data sep.data with
  | some (a, b) => some (⟨a⟩, ⟨b⟩)
  | Option.none => Option.none

def strRSplit1 (s : String) (sep : Char) : Option (String × String) :=
  match splitLastChar s.data sep with
  | some (a, b) => some (⟨a⟩, ⟨b⟩)
  | Option.none => Option.none

def strSplitAll (s : String) (sep : Char) : List String :=
  (splitAllChar s.data sep).map (⟨·⟩)

def strStrip (s : String) : String := ⟨stripChars s.data⟩

/-- `str.replace(old, new)` — replaces every occurrence, left to right
(used by the parser with `new = ""` to drop a scheme). -/
def listReplace (fuel : Nat) (l old new : List Char) : List Char :=
  match fuel with
  | 0 => l
  | fuel + 1 =>
      match l with
      | [] => []
      | c :: rest =>
          if old ≠ [] ∧ listStartsWith (c :: rest) old then
            new ++ listReplace fuel ((c :: rest).drop old.length) old new
          else c :: listReplace fuel rest old new

def strReplace (s old new : String) : String :=
  ⟨listReplace s.data.length s.data old.data new.data⟩

/-- Python `str.lower()` restricted to ASCII (all strings the code
lowercases are scheme names and hostnames). -/
def lowerStr (s : String) : String := ⟨s.data.map Char.toLower⟩

/-! ## Base64 (`base64.b64encode` / `b64decode`) -/

/-- Value of a base64 alphabet character, `none` otherwise. -/
def b64CharVal (c : Char) : Option Nat :=
  if 65 ≤ c.toNat ∧ c.toNat ≤ 90 then some (c.toNat - 65)        -- A-Z
  else if 97 ≤ c.toNat ∧ c.toNat ≤ 122 then some (c.toNat - 97 + 26)  -- a-z
  else if 48 ≤ c.toNat ∧ c.toNat ≤ 57 then some (c.toNat - 48 + 52)   -- 0-9
  else if c = '+' then some 62
  else if c = '/' then some 63
  else Option.none

def isB64Char (c : Char) : Bool := (b64CharVal c).isSome

/-- Character of a 6-bit value. -/
def b64ValChar (n : Nat) : Char :=
  if n < 26 then Char.ofNat (65 + n)
  else if n < 52 then Char.ofNat (97 + (n - 26))
  else if n < 62 then Char.ofNat (48 + (n - 52))
  else if n = 62 then '+'
  else '/'

/-- Decode a run of complete 4-character groups (values already mapped). -/
def b64Quads : List Nat → List Nat
  | a :: b :: c :: d :: rest =>
      (a * 4 + b / 16) :: ((b % 16) * 16 + c / 4) :: ((c % 4) * 64 + d) :: b64Quads rest
  | _ => []

/-- `base64.b64decode(s)` with default validation: characters outside the
alphabet are discarded, `=` terminates the data; the total length
(data + padding) must be a multiple of 4, padding at most 2, otherwise
`binascii.Error`. Returns the byte string. -/
def b64decode (s : String) : Except PyErr (List Nat) :=
  let chars := s.data.filter (fun c => isB64Char c || c = '=')
  let body := chars.takeWhile (fun c => c ≠ '=')
  let pads := chars.drop body.length
  if ¬ (pads.all (fun c => c = '=')) then .error .binasciiError
  else if (body.length + pads.length) % 4 ≠ 0 then .error .binasciiError
  else if pads.length > 2 then .error .binasciiError
  else
    let vals := body.filterMap b64CharVal
    match body.length % 4, pads.length with
    | 0, 0 => .ok (b64Quads vals)
    | 2, 2 =>
        let main := b64Quads (vals.take (vals.length - 2))
        let tail := vals.drop (vals.length - 2)
        (match tail with
         | [a, b] => .ok (main ++ [a * 4 + b / 16])
         | _ => .error .binasciiError)
    | 3, 1 =>
        let main := b64Quads (vals.take (vals.length - 3))
        let tail := vals.drop (vals.length - 3)
        (match tail with
         | [a, b, c] => .ok (main ++ [a * 4 + b / 16, (b % 16) * 16 + c / 4])
         | _ => .error .binasciiError)
    | _, _ => .error .binasciiError

/-- `base64.b64encode(bytes)`, returning the ASCII string. -/
def b64encode : List Nat → List Char
  | [] => []
  | [a] =>
      [b64ValChar (a / 4), b64ValChar ((a % 4) * 16), '=', '=']
  | [a, b] =>
      [b64ValChar (a / 4), b64ValChar ((a % 4) * 16 + b / 16),
       b64ValChar ((b % 16) * 4), '=']
  | a :: b :: c :: rest =>
      b64ValChar (a / 4) :: b64ValChar ((a % 4) * 16 + b / 16) ::
      b64ValChar ((b % 16) * 4 + c / 64) :: b64ValChar (c % 64) :: b64encode rest

def b64encodeStr (bs : List Nat) : String := ⟨b64encode bs⟩

/-- The `b64 + '=' * (-len(b64) % 4)` padding correction used throughout
`parser.py`. -/
def padB64 (s : String) : String :=
  ⟨s.data ++ List.replicate ((4 - s.data.length % 4) % 4) '='⟩

/-! ## UTF-8 codec (`bytes.decode` / `str.encode`) -/

/-- `str.encode()` — UTF-8 bytes of a string. -/
def utf8EncodeChar (c : Char) : List Nat :=
  let n := c.toNat
  if n < 0x80 then [n]
  else if n < 0x800 then [0xC0 + n / 64, 0x80 + n % 64]
  else if n < 0x10000 then [0xE0 + n / 4096, 0x80 + (n / 64) % 64, 0x80 + n % 64]
  else [0xF0 + n / 262144, 0x80 + (n / 4096) % 64, 0x80 + (n / 64) % 64, 0x80 + n % 64]

def utf8Encode (s : String) : List Nat := s.data.flatMap utf8EncodeChar

def isUtf8Cont (b : Nat) : Bool := 0x80 ≤ b ∧ b ≤ 0xBF

/-- One UTF-8 decoding step: returns the decoded char (or `none` for an
ill-formed sequence) and the number of input bytes consumed. The consumed
count on error is the length of the maximal subpart of the ill-formed
sequence, matching the CPython decoder. -/
def utf8Step : List Nat → Option Char × Nat
  | [] => (Option.none, 1)
  | b :: rest =>
    if b ≤ 0x7F then (some (Char.ofNat b), 1)
    else if 0xC2 ≤ b ∧ b ≤ 0xDF then
      match rest with
      | b1 :: _ =>
          if isUtf8Cont b1 then (some (Char.ofNat ((b - 0xC0) * 64 + (b1 - 0x80))), 2)
          else (Option.none, 1)
      | [] => (Option.none, 1)
    else if 0xE0 ≤ b ∧ b ≤ 0xEF then
      let lo1 := if b = 0xE0 then 0xA0 else 0x80
      let hi1 := if b = 0xED then 0x9F else 0xBF
      match rest with
      | b1 :: rest1 =>
          if lo1 ≤ b1 ∧ b1 ≤ hi1 then
            match rest1 with
            | b2 :: _ =>
                if isUtf8Cont b2 then
                  (some (Char.ofNat ((b - 0xE0) * 4096 + (b1 - 0x80) * 64 + (b2 - 0x80))), 3)
                else (Option.none, 2)
            | [] => (Option.none, 2)
          else (Option.none, 1)
      | [] => (Option.none, 1)
    else if 0xF0 ≤ b ∧ b ≤ 0xF4 then
      let lo1 := if b = 0xF0 then 0x90 else 0x80
      let hi1 := if b = 0xF4 then 0x8F else 0xBF
      match rest with
      | b1 :: rest1 =>
          if lo1 ≤ b1 ∧ b1 ≤ hi1 then
            match rest1 with
            | b2 :: rest2 =>
                if isUtf8Cont b2 then
                  match rest2 with
                  | b3 :: _ =>
                      if isUtf8Cont b3 then
                        (some (Char.ofNat ((b - 0xF0) * 262144 + (b1 - 0x80) * 4096 +
                                           (b2 - 0x80) * 64 + (b3 - 0x80))), 4)
                      else (Option.none, 3)
                  | [] => (Option.none, 3)
                else (Option.none, 2)
            | [] => (Option.none, 2)
          else (Option.none, 1)
      | [] => (Option.none, 1)
    else (Option.none, 1)

/-- Error policy of a `bytes.decode('utf-8', ...)` call. -/
inductive Utf8Policy where
  | strict
  | ignore
  | replaceErr

/-- Fuel-driven UTF-8 decode; fuel ≥ byte count suffices. `strict` raises
`UnicodeDecodeError`; `ignore` drops the ill-formed subpart; `replaceErr`
substitutes U+FFFD. -/
def utf8DecodeAux (pol : Utf8Policy) : Nat → List Nat → Except PyErr (List Char)
  | _, [] => .ok []
  | 0, _ => .ok []
  | fuel + 1, bs =>
      match utf8Step bs with
      | (some c, k) => do
          let rest ← utf8DecodeAux pol fuel (bs.drop k)
          .ok (c :: rest)
      | (Option.none, k) =>
          match pol with
          | .strict => .error .unicodeDecodeError
          | .ignore => utf8DecodeAux pol fuel (bs.drop k)
          | .replaceErr => do
              let rest ← utf8DecodeAux pol fuel (bs.drop k)
              .ok (Char.ofNat 0xFFFD :: rest)

/-- `bytes.decode()` (strict). -/
def utf8DecodeStrict (bs : List Nat) : Except PyErr String :=
  (utf8DecodeAux .strict bs.length bs).map (⟨·⟩)

/-- `bytes.decode('utf-8', 'ignore')`. -/
def utf8DecodeIgnore (bs : List Nat) : String :=
  match utf8DecodeAux .ignore bs.length bs with
  | .ok l => ⟨l⟩
  | .error _ => ""

/-- `bytes.decode('utf-8', 'replace')` (used inside `urllib`'s
`unquote`). -/
def utf8DecodeReplace (bs : List Nat) : String :=
  match utf8DecodeAux .replaceErr bs.length bs with
  | .ok l => ⟨l⟩
  | .error _ => ""

/-! ## `urllib.parse`: `urlsplit` accessors, `unquote`, `parse_qs`

Modelled on the CPython implementation: `urlsplit` strips surrounding
control characters and spaces, removes tab/CR/LF anywhere, splits off a
valid scheme at the first `:`, reads the netloc after `//` up to the first
of `/?#`, then splits the fragment at the first `#` and the query at the
first `?`.  The `username`/`password`/`hostname`/`port` accessors follow
`_userinfo`/`_hostinfo`: userinfo before the last `@` (split at the first
`:`), hostinfo after it (bracket form for IPv6, else split at the first
`:`), hostname lowercased, and `port` parsed base-10 and range-checked to
`0..65535` with `ValueError` outside that range. -/

structure UrlParts where
  scheme : String
  netloc : String
  path : String
  query : String
  fragment : String

def isSchemeChar (c : Char) : Bool :=
  c.isAlpha || c.isDigit || c = '+' || c = '-' || c = '.'

def isC0OrSpace (c : Char) : Bool := c.toNat ≤ 32

/-- Leading/trailing C0-and-space strip plus tab/CR/LF removal that
CPython applies to the url before splitting. -/
def urlClean (s : String) : List Char :=
  let l := (s.data.dropWhile isC0OrSpace).reverse.dropWhile isC0OrSpace |>.reverse
  l.filter (fun c => c ≠ '\t' ∧ c ≠ '\r' ∧ c ≠ '\n')

def urlsplitModel (url : String) : UrlParts :=
  let u := urlClean url
  -- scheme
  let (schemeL, rest) :=
    match splitFirstSub u [':'] with
    | some (before, after) =>
        if before ≠ [] ∧ before.head?.all Char.isAlpha ∧ before.all isSchemeChar then
          (before.map Char.toLower, after)
        else ([], u)
    | Option.none => ([], u)
  -- netloc
  let (netlocL, rest2) :=
    if listStartsWith rest ['/', '/'] then
      let r := rest.drop 2
      (r.takeWhile (fun c => c ≠ '/' ∧ c ≠ '?' ∧ c ≠ '#'),
       r.dropWhile (fun c => c ≠ '/' ∧ c ≠ '?' ∧ c ≠ '#'))
    else ([], rest)
  -- fragment
  let (rest3, fragL) :=
    match splitFirstSub rest2 ['#'] with
    | some (a, b) => (a, b)
    | Option.none => (rest2, [])
  -- query
  let (pathL, queryL) :=
    match splitFirstSub rest3 ['?'] with
    | some (a, b) => (a, b)
    | Option.none => (rest3, [])
  { scheme := ⟨schemeL⟩, netloc := ⟨netlocL⟩, path := ⟨pathL⟩,
    query := ⟨queryL⟩, fragment := ⟨fragL⟩ }

/-- `_userinfo`: `(username, password)`; both `none` when the netloc has
no `@`. -/
def upUserinfo (p : UrlParts) : Option String × Option String :=
  match splitLastChar p.netloc.data '@' with
  | some (ui, _) =>
      (match splitFirstSub ui [':'] with
       | some (u, pw) => (some ⟨u⟩, some ⟨pw⟩)
       | Option.none => (some ⟨ui⟩, Option.none))
  | Option.none => (Option.none, Option.none)

def upUsername (p : UrlParts) : Option String := (upUserinfo p).1

def upPassword (p : UrlParts) : Option String := (upUserinfo p).2

/-- `_hostinfo`: `(hostname or None, port string or None)`. -/
def upHostinfo (p : UrlParts) : Option String × Option String :=
  let hostinfo :=
    match splitLastChar p.netloc.data '@' with
    | some (_, hi) => hi
    | Option.none => p.netloc.data
  match splitFirstSub hostinfo ['['] with
  | some (_, bracketed) =>
      let (host, after) :=
        match splitFirstSub bracketed [']'] with
        | some (h, a) => (h, a)
        | Option.none => (bracketed, [])
      let port :=
        match splitFirstSub after [':'] with
        | some (_, pt) => pt
        | Option.none => []
      (if host = [] then Option.none else some ⟨host⟩,
       if port = [] then Option.none else some ⟨port⟩)
  | Option.none =>
      match splitFirstSub hostinfo [':'] with
      | some (h, pt) =>
          (if h = [] then Option.none else some ⟨h⟩,
           if pt = [] then Option.none else some ⟨pt⟩)
      | Option.none =>
          (if hostinfo = [] then Option.none else some ⟨hostinfo⟩, Option.none)

/-- `parsed.hostname` (lowercased, `None` when empty). -/
def upHostname (p : UrlParts) : Option String :=
  (upHostinfo p).1.map lowerStr

/-- `parsed.port`: parsed base 10 and checked to lie in `0..65535`,
raising `ValueError` otherwise. -/
def upPort (p : UrlParts) : Except PyErr (Option Int) :=
  match (upHostinfo p).2 with
  | Option.none => .ok Option.none
  | some s => do
      let v ← pyIntStr s
      if 0 ≤ v ∧ v ≤ 65535 then .ok (some v) else .error .valueError

/-- Python `x or y` on an optional string: `y` when `x` is `None` or
empty. -/
def pyOrStr (x : Option String) (y : String) : String :=
  match x with
  | some s => if s = "" then y else s
  | Option.none => y

/-- Python `x or y` on an optional int: `y` when `x` is `None` or `0`. -/
def pyOrInt (x : Option Int) (y : Int) : Int :=
  match x with
  | some v => if v = 0 then y else v
  | Option.none => y

/-- Hex digit value. -/
def hexVal (c : Char) : Option Nat :=
  if 48 ≤ c.toNat ∧ c.toNat ≤ 57 then some (c.toNat - 48)
  else if 65 ≤ c.toNat ∧ c.toNat ≤ 70 then some (c.toNat - 55)
  else if 97 ≤ c.toNat ∧ c.toNat ≤ 102 then some (c.toNat - 87)
  else Option.none

/-- `urllib.parse.unquote`: percent-escape runs are decoded as UTF-8 with
`errors='replace'`; characters outside escapes pass through. -/
def unquoteAux : Nat → List Char → List Char
  | 0, l => l
  | fuel + 1, l =>
      match l with
      | [] => []
      | '%' :: rest =>
          -- gather a maximal run of escapes
          let rec gather : Nat → List Char → List Nat × List Char
            | 0, l2 => ([], l2)
            | g + 1, l2 =>
                match l2 with
                | '%' :: a :: b :: r2 =>
                    (match hexVal a, hexVal b with
                     | some ha, some hb =>
                         let (bs, rem) := gather g r2
                         ((ha * 16 + hb) :: bs, rem)
                     | _, _ => ([], l2))
                | _ => ([], l2)
          let (bs, rem) := gather (rest.length + 1) ('%' :: rest)
          if bs = [] then '%' :: unquoteAux fuel rest
          else (utf8DecodeReplace bs).data ++ unquoteAux fuel rem
      | c :: rest => c :: unquoteAux fuel rest

def pyUnquote (s : String) : String := ⟨unquoteAux s.data.length s.data⟩

/-- `unquote_plus`: `+` becomes a space, then `unquote`. -/
def pyUnquotePlus (s : String) : String :=
  pyUnquote ⟨s.data.map (fun c => if c = '+' then ' ' else c)⟩

/-- `urllib.parse.parse_qsl(query)` with the default arguments of
`parse_qs`: split on `&`, skip empty chunks, skip chunks without `=` and
chunks with an empty value, unquote-plus names and values. -/
def parseQsl (query : String) : List (String × String) :=
  (strSplitAll query '&').foldr
    (fun chunk acc =>
      if chunk = "" then acc
      else
        match strSplit1 chunk "=" with
        | some (n, v) =>
            if v = "" then acc
            else (pyUnquotePlus n, pyUnquotePlus v) :: acc
        | Option.none => acc)
    []

/-- `parse_qs(query).get(key, [default])[0]`: the first value bound to
`key`, else `default`. -/
def qsGetD (query : String) (key dflt : String) : String :=
  match (parseQsl query).find? (fun p => p.1 = key) with
  | some (_, v) => v
  | Option.none => dflt

/-- `'key' in parse_qs(query)`. -/
def qsHas (query key : String) : Bool :=
  ((parseQsl query).find? (fun p => p.1 = key)).isSome

/-! ## `parser.py`: `parse_v2ray_uri` -/

/-- The type of the `json.loads` collaborator (stdlib; passed in as a
parameter; a parse failure is `JSONDecodeError`). -/
def JsonLoads : Type := String → Except PyErr PyVal

/-- The body of `parse_v2ray_uri` — everything inside its outer `try`.
Each branch is a direct translation of the corresponding `elif` arm of
`parser.py`; exceptions propagate in the `Except` monad unless the source
catches them in an inner `try`. -/
def parse_v2ray_uri_body (jl : JsonLoads) (uri : String) : Except PyErr (Option PyVal) := do
  if strStartsWith uri "vmess://" then
    let b64Config := strReplace uri "vmess://" ""
    let b64Config := padB64 b64Config
    -- inner try, catching only json.JSONDecodeError
    let bs ← b64decode b64Config
    let s ← utf8DecodeStrict bs
    match jl s with
    | .error .jsonDecodeError => return Option.none
    | .error e => throw e
    | .ok config => do
        let name ← pyDictGetD config "ps" (.str "Unknown")
        let server ← pyDictGetD config "add" (.str "")
        let portV ← pyDictGetD config "port" (.int 0)
        let port ← pyIntVal portV
        let uuid ← pyDictGetD config "id" (.str "")
        let aidV ← pyDictGetD config "aid" (.int 0)
        let aid ← pyIntVal aidV
        let cipher ← pyDictGetD config "type" (.str "auto")
        let tlsV ← pyDictGetD config "tls" (.str "")
        let netV ← pyDictGetD config "net" (.str "tcp")
        return some (.dict [("type", .str "vmess"), ("name", name),
          ("server", server), ("port", .int port), ("uuid", uuid),
          ("alterId", .int aid), ("cipher", cipher),
          ("tls", .bool (pyEqStr tlsV "tls")), ("network", netV)])
  else if strStartsWith uri "trojan://" then
    let parsed := urlsplitModel uri
    let q := parsed.query
    let name := qsGetD q "sni" (qsGetD q "peer" "Unknown")
    let port ← upPort parsed
    return some (.dict [("type", .str "trojan"), ("name", .str name),
      ("server", .str (pyOrStr (upHostname parsed) "")),
      ("port", .int (pyOrInt port 443)),
      ("password", .str (pyOrStr (upUsername parsed) ""))])
  else if strStartsWith uri "vless://" then
    let parsed := urlsplitModel uri
    let q := parsed.query
    let name := qsGetD q "remarks" (qsGetD q "sni" "Unknown")
    let port ← upPort parsed
    return some (.dict [("type", .str "vless"), ("name", .str name),
      ("server", .str (pyOrStr (upHostname parsed) "")),
      ("port", .int (pyOrInt port 443)),
      ("uuid", .str (pyOrStr (upUsername parsed) "")),
      ("tls", .bool (qsGetD q "security" "" = "tls")),
      ("flow", .str (qsGetD q "flow" "")),
      ("network", .str (qsGetD q "type" "tcp"))])
  else if strStartsWith uri "ss://" then
    -- fragment name first; the uri is then stripped of the fragment
    let (name, uri) :=
      if strHasSub uri "#" then
        match strSplit1 uri "#" with
        | some (before, after) => (pyUnquote after, before)
        | Option.none => ("Unknown", uri)
      else ("Unknown", uri)
    if strHasSub uri "@" then
      let parsed := urlsplitModel uri
      let server := upHostname parsed
      let port ← upPort parsed
      let (method, password) :=
        match upUsername parsed with
        | some userinfo =>
            if userinfo ≠ "" then
              -- try base64-decoding the userinfo; bare except falls back
              match (do
                      let bs ← b64decode (padB64 userinfo)
                      utf8DecodeStrict bs : Except PyErr String) with
              | .ok decoded =>
                  if strHasSub decoded ":" then
                    match strSplit1 decoded ":" with
                    | some (m, pw) => (m, pw)
                    | Option.none => ("aes-256-gcm", userinfo)
                  else ("aes-256-gcm", userinfo)
              | .error _ =>
                  if strHasSub userinfo ":" then
                    match strSplit1 userinfo ":" with
                    | some (m, pw) => (m, pw)
                    | Option.none => ("aes-256-gcm", userinfo)
                  else ("aes-256-gcm", userinfo)
            else ("aes-256-gcm", "")
        | Option.none => ("aes-256-gcm", "")
      let name := if qsHas parsed.query "remarks" then qsGetD parsed.query "remarks" "Unknown" else name
      return some (.dict [("type", .str "ss"), ("name", .str name),
        ("server", .str (pyOrStr server "")),
        ("port", .int (pyOrInt port 443)),
        ("cipher", .str method), ("password", .str password)])
    else
      -- whole-authority Base64 form; inner try catches everything
      let b64Config := strReplace uri "ss://" ""
      match (do
              let b64Config := padB64 b64Config
              let bs ← b64decode b64Config
              let configStr ← utf8DecodeStrict bs
              if strHasSub configStr "@" then do
                let (methodPwd, serverPort) ←
                  match strRSplit1 configStr '@' with
                  | some p => Except.ok p
                  | Option.none => Except.error PyErr.valueError
                let (method, password) ←
                  match strSplit1 methodPwd ":" with
                  | some p => Except.ok p
                  | Option.none => Except.error PyErr.valueError  -- unpack of 1 into 2
                let (server, portS) ←
                  match strRSplit1 serverPort ':' with
                  | some p => Except.ok p
                  | Option.none => Except.error PyErr.valueError
                let port ← pyIntStr portS
                Except.ok (some (PyVal.dict [("type", .str "ss"), ("name", .str name),
                  ("server", .str server), ("port", .int port),
                  ("cipher", .str method), ("password", .str password)]))
              else Except.ok Option.none  -- no return: falls to the implicit None
              : Except PyErr (Option PyVal)) with
      | .ok r => return r
      | .error _ => return Option.none
  else if strStartsWith uri "ssr://" then
    let b64Config := strReplace uri "ssr://" ""
    match (do
            let b64Config := padB64 b64Config
            let bs ← b64decode b64Config
            let configStr ← utf8DecodeStrict bs
            let parts := strSplitAll configStr ':'
            match parts with
            | server :: portS :: protocol :: method :: obfs :: p5 :: _ => do
                let (passwordB64, params?) :=
                  match strSplit1 p5 "/?" with
                  | some (a, b) => (a, some b)
                  | Option.none => (p5, Option.none)
                let pwBs ← b64decode (padB64 passwordB64)
                let password ← utf8DecodeStrict pwBs
                let name :=
                  match params? with
                  | some params =>
                      if strHasSub params "remarks=" then
                        let afterRemarks :=
                          match strSplit1 params "remarks=" with
                          | some (_, a) => a
                          | Option.none => ""
                        let remarksB64 :=
                          match strSplit1 afterRemarks "&" with
                          | some (a, _) => a
                          | Option.none => afterRemarks
                        -- innermost try: except: pass keeps 'Unknown'
                        match (do
                                let bs2 ← b64decode (padB64 remarksB64)
                                utf8DecodeStrict bs2 : Except PyErr String) with
                        | .ok n => n
                        | .error _ => "Unknown"
                      else "Unknown"
                  | Option.none => "Unknown"
                let port ← pyIntStr portS
                Except.ok (some (PyVal.dict [("type", .str "ssr"), ("name", .str name),
                  ("server", .str server), ("port", .int port),
                  ("protocol", .str protocol), ("cipher", .str method),
                  ("obfs", .str obfs), ("password", .str password)]))
            | _ => Except.ok Option.none  -- len(parts) < 6: implicit None
            : Except PyErr (Option PyVal)) with
    | .ok r => return r
    | .error _ => return Option.none
  else if strStartsWith uri "http://" || strStartsWith uri "https://" then
    let parsed := urlsplitModel uri
    let q := parsed.query
    let port ← upPort parsed
    return some (.dict [
      ("type", .str (if strStartsWith uri "http://" then "http" else "https")),
      ("name", .str (qsGetD q "remarks" "Unknown")),
      ("server", .str (pyOrStr (upHostname parsed) "")),
      ("port", .int (pyOrInt port (if strStartsWith uri "http://" then 80 else 443))),
      ("username", .str (pyOrStr (upUsername parsed) "")),
      ("password", .str (pyOrStr (upPassword parsed) ""))])
  else if strStartsWith uri "socks://" || strStartsWith uri "socks5://" then
    let parsed := urlsplitModel uri
    let q := parsed.query
    let port ← upPort parsed
    return some (.dict [("type", .str "socks"),
      ("name", .str (qsGetD q "remarks" "Unknown")),
      ("server", .str (pyOrStr (upHostname parsed) "")),
      ("port", .int (pyOrInt port 1080)),
      ("username", .str (pyOrStr (upUsername parsed) "")),
      ("password", .str (pyOrStr (upPassword parsed) ""))])
  else if strStartsWith uri "hysteria://" then
    let parsed := urlsplitModel uri
    let q := parsed.query
    let port ← upPort parsed
    return some (.dict [("type", .str "hysteria"),
      ("name", .str (qsGetD q "peer" "Unknown")),
      ("server", .str (pyOrStr (upHostname parsed) "")),
      ("port", .int (pyOrInt port 443)),
      ("protocol", .str (qsGetD q "protocol" "")),
      ("auth", .str (pyOrStr (upUsername parsed) (qsGetD q "auth" "")))])
  else if strStartsWith uri "wireguard://" then
    let parsed := urlsplitModel uri
    let q := parsed.query
    let port ← upPort parsed
    return some (.dict [("type", .str "wireguard"),
      ("name", .str (qsGetD q "remarks" "Unknown")),
      ("server", .str (pyOrStr (upHostname parsed) "")),
      ("port", .int (pyOrInt port 51820)),
      ("private_key", .str (qsGetD q "privateKey" "")),
      ("public_key", .str (qsGetD q "publicKey" "")),
      ("allowed_ips", .str (qsGetD q "allowedIPs" "0.0.0.0/0"))])
  else
    return Option.none

/-- `parse_v2ray_uri` in the exception monad: the whole body sits inside
`try: ... except Exception: return None`. -/
def parse_v2ray_uri_exc (jl : JsonLoads) (uri : String) : Except PyErr (Option PyVal) :=
  match parse_v2ray_uri_body jl uri with
  | .ok r => .ok r
  | .error _ => .ok Option.none

/-- `parse_v2ray_uri` as its callers see it: a node dict or `None`. -/
def parse_v2ray_uri (jl : JsonLoads) (uri : String) : Option PyVal :=
  match parse_v2ray_uri_exc jl uri with
  | .ok r => r
  | .error _ => Option.none

/-! ## `parser.py`: `node_to_v2ray_uri` -/

/-- `json.dumps` string escaping with the default `ensure_ascii=True`
(sufficient for the flat, string-valued configs this encoder dumps). -/
def jsonEscapeChar (c : Char) : List Char :=
  if c = '"' then ['\\', '"']
  else if c = '\\' then ['\\', '\\']
  else if c = '\n' then ['\\', 'n']
  else if c = '\r' then ['\\', 'r']
  else if c = '\t' then ['\\', 't']
  else if c.toNat < 0x20 ∨ c.toNat > 0x7E then
    let hx (n : Nat) : Char :=
      if n < 10 then Char.ofNat (48 + n) else Char.ofNat (97 + (n - 10))
    ['\\', 'u', hx (c.toNat / 4096 % 16), hx (c.toNat / 256 % 16),
     hx (c.toNat / 16 % 16), hx (c.toNat % 16)]
  else [c]

def jsonQuote (s : String) : String :=
  "\"" ++ ⟨s.data.flatMap jsonEscapeChar⟩ ++ "\""

/-- `json.dumps` for the values this encoder produces (flat dicts of
strings; other shapes never occur in `node_to_v2ray_uri`). -/
def jsonDumps : PyVal → String
  | .str s => jsonQuote s
  | .int i => intToStr i
  | .bool b => if b then "true" else "false"
  | .none => "null"
  | .list l => "[" ++ String.intercalate ", " (l.map jsonDumpsShallow) ++ "]"
  | .dict d =>
      "\x7b" ++
      String.intercalate ", " (d.map (fun p => jsonQuote p.1 ++ ": " ++ jsonDumpsShallow p.2)) ++
      "\x7d"
where
  jsonDumpsShallow : PyVal → String
  | .str s => jsonQuote s
  | .int i => intToStr i
  | .bool b => if b then "true" else "false"
  | _ => "null"

/-- `str.encode()` then `b64encode` then `.decode()` — the
`base64.b64encode(x.encode()).decode()` idiom of the encoder. -/
def b64OfStr (s : String) : String := b64encodeStr (utf8Encode s)

/-- `node_to_v2ray_uri` from `parser.py`: renders a node dict into its
protocol URI; `None` for an unknown `type`; missing mandatory keys raise
`KeyError` exactly where the source subscripts the dict. -/
def node_to_v2ray_uri (node : PyVal) : Except PyErr (Option String) := do
  let t ← pyDictReq node "type"
  if pyEqStr t "vmess" then
    let name ← pyDictReq node "name"
    let server ← pyDictReq node "server"
    let port ← pyDictReq node "port"
    let uuid ← pyDictReq node "uuid"
    let alterId ← pyDictReq node "alterId"
    let network ← pyDictGetD node "network" (.str "tcp")
    let typeV ← pyDictGetD node "type" (.str "none")  -- note: always the kind itself
    let tls ← pyDictGetD node "tls" (.bool false)
    let config : PyVal := .dict [("v", .str "2"), ("ps", name),
      ("add", server), ("port", .str (pyStr port)), ("id", uuid),
      ("aid", .str (pyStr alterId)), ("net", network), ("type", typeV),
      ("tls", .str (if pyTruthy tls then "tls" else ""))]
    return some ("vmess://" ++ b64OfStr (jsonDumps config))
  else if pyEqStr t "trojan" then
    let password ← pyDictReq node "password"
    let server ← pyDictReq node "server"
    let port ← pyDictReq node "port"
    let name ← pyDictReq node "name"
    return some ("trojan://" ++ pyStr password ++ "@" ++ pyStr server ++ ":" ++
      pyStr port ++ "?sni=" ++ pyStr name)
  else if pyEqStr t "vless" then
    let tls ← pyDictGetD node "tls" .none
    let flow ← pyDictGetD node "flow" .none
    let network ← pyDictGetD node "network" .none
    let queryParts : List String :=
      (if pyTruthy tls then ["security=tls"] else []) ++
      (if pyTruthy flow then ["flow=" ++ pyStr flow] else []) ++
      (if pyTruthy network then ["type=" ++ pyStr network] else [])
    let queryString := String.intercalate "&" queryParts
    let uuid ← pyDictReq node "uuid"
    let server ← pyDictReq node "server"
    let port ← pyDictReq node "port"
    let name ← pyDictReq node "name"
    return some ("vless://" ++ pyStr uuid ++ "@" ++ pyStr server ++ ":" ++
      pyStr port ++ "?" ++ queryString ++ "&remarks=" ++ pyStr name)
  else if pyEqStr t "ss" then
    let cipher ← pyDictReq node "cipher"
    let password ← pyDictReq node "password"
    let userinfo := pyStr cipher ++ ":" ++ pyStr password
    let server ← pyDictReq node "server"
    let port ← pyDictReq node "port"
    let name ← pyDictReq node "name"
    return some ("ss://" ++ b64OfStr userinfo ++ "@" ++ pyStr server ++ ":" ++
      pyStr port ++ "#" ++ pyStr name)
  else if pyEqStr t "ssr" then
    let password ← pyDictReq node "password"
    let name ← pyDictReq node "name"
    let server ← pyDictReq node "server"
    let port ← pyDictReq node "port"
    let protocol ← pyDictReq node "protocol"
    let cipher ← pyDictReq node "cipher"
    let obfs ← pyDictReq node "obfs"
    let ssrStr := pyStr server ++ ":" ++ pyStr port ++ ":" ++ pyStr protocol ++
      ":" ++ pyStr cipher ++ ":" ++ pyStr obfs ++ ":" ++ b64OfStr (pyStr password) ++
      "/?remarks=" ++ b64OfStr (pyStr name)
    return some ("ssr://" ++ b64OfStr ssrStr)
  else if pyEqStr t "http" || pyEqStr t "https" then
    let proto := if pyEqStr t "http" then "http" else "https"
    let u ← pyDictGetD node "username" (.str "")
    let pw ← pyDictGetD node "password" (.str "")
    -- note the stray "@ " and repeated username, exactly as in the source
    let auth := pyStr u ++ ":" ++ pyStr pw ++ "@ " ++ pyStr u
    let server ← pyDictReq node "server"
    let port ← pyDictReq node "port"
    let name ← pyDictReq node "name"
    return some (proto ++ "://" ++ auth ++ pyStr server ++ ":" ++ pyStr port ++
      "?remarks=" ++ pyStr name)
  else if pyEqStr t "socks" then
    let u ← pyDictGetD node "username" (.str "")
    let pw ← pyDictGetD node "password" (.str "")
    let uNoDflt ← pyDictGetD node "username" .none  -- .get with no default
    let auth := pyStr u ++ ":" ++ pyStr pw ++ "@ " ++ pyStr uNoDflt
    let server ← pyDictReq node "server"
    let port ← pyDictReq node "port"
    let name ← pyDictReq node "name"
    return some ("socks://" ++ auth ++ pyStr server ++ ":" ++ pyStr port ++
      "?remarks=" ++ pyStr name)
  else if pyEqStr t "hysteria" then
    let authV ← pyDictGetD node "auth" .none
    let auth := if pyTruthy authV then pyStr authV ++ "@" else ""
    let protocolV ← pyDictGetD node "protocol" .none
    let protocolPart := if pyTruthy protocolV then "?protocol=" ++ pyStr protocolV else ""
    let server ← pyDictReq node "server"
    let port ← pyDictReq node "port"
    let name ← pyDictReq node "name"
    return some ("hysteria://" ++ auth ++ pyStr server ++ ":" ++ pyStr port ++
      protocolPart ++ "&peer=" ++ pyStr name)
  else if pyEqStr t "wireguard" then
    let pk ← pyDictGetD node "private_key" .none
    let pub ← pyDictGetD node "public_key" .none
    let ips ← pyDictGetD node "allowed_ips" .none
    let queryParts : List String :=
      (if pyTruthy pk then ["privateKey=" ++ pyStr pk] else []) ++
      (if pyTruthy pub then ["publicKey=" ++ pyStr pub] else []) ++
      (if pyTruthy ips then ["allowedIPs=" ++ pyStr ips] else [])
    let queryString := String.intercalate "&" queryParts
    let server ← pyDictReq node "server"
    let port ← pyDictReq node "port"
    let name ← pyDictReq node "name"
    return some ("wireguard://" ++ pyStr server ++ ":" ++ pyStr port ++ "?" ++
      queryString ++ "&remarks=" ++ pyStr name)
  else
    return Option.none

/-! ## `parser.py`: `parse_single_json_node`, `parse_json_nodes`,
`parse_clash_yaml` -/

/-- `.lower()` on a Python value: `AttributeError` unless a string. -/
def pyLowerVal : PyVal → Except PyErr String
  | .str s => .ok (lowerStr s)
  | _ => .error .attributeError

def upperStr (s : String) : String := ⟨s.data.map Char.toUpper⟩

/-- `parse_single_json_node(item)`: the four pattern branches, each with
its own `try/except → None`; note that the `.lower()` in the Trojan
branch condition sits outside any `try` and so propagates. -/
def parse_single_json_node (item : PyVal) : Except PyErr (Option PyVal) := do
  match item with
  | .dict _ => do
    if pyDictHasKey item "server" ∧ pyDictHasKey item "server_port" ∧
       pyDictHasKey item "method" ∧ pyDictHasKey item "password" then
      -- Shadowsocks form
      match (do
              let server ← pyDictReq item "server"
              let name ← pyDictGetD item "remarks" (.str ("SS-" ++ pyStr server))
              let portV ← pyDictReq item "server_port"
              let port ← pyIntVal portV
              let cipher ← pyDictReq item "method"
              let password ← pyDictReq item "password"
              let plugin ← pyDictGetD item "plugin" (.str "")
              let pluginOpts ← pyDictGetD item "plugin_opts" (.str "")
              pure (some (PyVal.dict [("type", .str "ss"), ("name", name),
                ("server", server), ("port", .int port), ("cipher", cipher),
                ("password", password), ("plugin", plugin),
                ("plugin_opts", pluginOpts)]))
             : Except PyErr (Option PyVal)) with
      | .ok r => return r
      | .error _ => return Option.none
    else if pyDictHasKey item "add" ∧ pyDictHasKey item "port" ∧ pyDictHasKey item "id" then
      -- VMess form
      match (do
              let add ← pyDictReq item "add"
              let remarksD ← pyDictGetD item "remarks" (.str ("VMess-" ++ pyStr add))
              let name ← pyDictGetD item "ps" remarksD
              let portV ← pyDictReq item "port"
              let port ← pyIntVal portV
              let uuid ← pyDictReq item "id"
              let aidV ← pyDictGetD item "aid" (.int 0)
              let aid ← pyIntVal aidV
              let secD ← pyDictGetD item "security" (.str "auto")
              let cipher ← pyDictGetD item "scy" secD
              let tlsV ← pyDictGetD item "tls" (.str "")
              let net ← pyDictGetD item "net" (.str "tcp")
              let path ← pyDictGetD item "path" (.str "/")
              let host ← pyDictGetD item "host" (.str "")
              pure (some (PyVal.dict [("type", .str "vmess"), ("name", name),
                ("server", add), ("port", .int port), ("uuid", uuid),
                ("alterId", .int aid), ("cipher", cipher),
                ("tls", .bool (pyEqStr tlsV "tls")), ("network", net),
                ("path", path), ("host", host)]))
             : Except PyErr (Option PyVal)) with
      | .ok r => return r
      | .error _ => return Option.none
    else do
      -- Trojan-branch condition: the `.lower()` can raise AttributeError
      let trojanCond ←
        if pyDictHasKey item "server" ∧ pyDictHasKey item "port" ∧
           pyDictHasKey item "password" then do
          let tv ← pyDictGetD item "type" (.str "")
          let lowered ← pyLowerVal tv
          pure (lowered == "trojan")
        else pure false
      if trojanCond then
        match (do
                let server ← pyDictReq item "server"
                let name ← pyDictGetD item "remarks" (.str ("Trojan-" ++ pyStr server))
                let portV ← pyDictReq item "port"
                let port ← pyIntVal portV
                let password ← pyDictReq item "password"
                let peerD ← pyDictGetD item "peer" (.str "")
                let sni ← pyDictGetD item "sni" peerD
                pure (some (PyVal.dict [("type", .str "trojan"), ("name", name),
                  ("server", server), ("port", .int port),
                  ("password", password), ("sni", sni)]))
               : Except PyErr (Option PyVal)) with
        | .ok r => return r
        | .error _ => return Option.none
      else if pyDictHasKey item "type" ∧ pyDictHasKey item "server" ∧
              pyDictHasKey item "port" then
        -- Clash form, fully inside its try
        match (do
                let tv ← pyDictReq item "type"
                let nodeType ← pyLowerVal tv
                if nodeType = "ss" ∨ nodeType = "vmess" ∨ nodeType = "trojan" ∨
                   nodeType = "vless" ∨ nodeType = "http" ∨ nodeType = "socks" then do
                  let server ← pyDictReq item "server"
                  let name ← pyDictGetD item "name"
                    (.str (upperStr nodeType ++ "-" ++ pyStr server))
                  let portV ← pyDictReq item "port"
                  let port ← pyIntVal portV
                  let base := [("type", PyVal.str nodeType), ("name", name),
                    ("server", server), ("port", PyVal.int port)]
                  if nodeType = "ss" then do
                    let cipher ← pyDictGetD item "cipher" (.str "aes-256-gcm")
                    let password ← pyDictGetD item "password" (.str "")
                    pure (some (PyVal.dict (base ++ [("cipher", cipher), ("password", password)])))
                  else if nodeType = "vmess" then do
                    let uuid ← pyDictGetD item "uuid" (.str "")
                    let aidV ← pyDictGetD item "alterId" (.int 0)
                    let aid ← pyIntVal aidV
                    let cipher ← pyDictGetD item "cipher" (.str "auto")
                    let tls ← pyDictGetD item "tls" (.bool false)
                    let network ← pyDictGetD item "network" (.str "tcp")
                    let withCommon := base ++ [("uuid", uuid), ("alterId", PyVal.int aid),
                      ("cipher", cipher), ("tls", tls), ("network", network)]
                    if pyDictHasKey item "ws-path" then do
                      let wsPath ← pyDictReq item "ws-path"
                      pure (some (PyVal.dict (withCommon ++ [("path", wsPath)])))
                    else pure (some (PyVal.dict withCommon))
                  else if nodeType = "trojan" ∨ nodeType = "vless" then do
                    let password ← pyDictGetD item "password" (.str "")
                    let sni ← pyDictGetD item "sni" (.str "")
                    pure (some (PyVal.dict (base ++ [("password", password), ("sni", sni)])))
                  else pure (some (PyVal.dict base))
                else pure Option.none  -- unsupported type: falls to final None
               : Except PyErr (Option PyVal)) with
        | .ok r => return r
        | .error _ => return Option.none
      else
        return Option.none
  | _ => return Option.none

/-- `parse_json_nodes(json_data)`. -/
def parse_json_nodes (jsonData : PyVal) : Except PyErr (List PyVal) := do
  match jsonData with
  | .list items =>
      items.foldlM (fun acc item => do
        let node ← parse_single_json_node item
        match node with
        | some n => pure (acc ++ [n])
        | Option.none => pure acc) []
  | .dict _ => do
      let single ← parse_single_json_node jsonData
      let start ←
        match single with
        | some n => pure [n]
        | Option.none =>
            -- elif 'servers' in json_data and isinstance(..., list)
            (do
              match jsonData with
              | .dict d =>
                  match alistGet d "servers" with
                  | some (.list servers) =>
                      servers.foldlM (fun acc s => do
                        let node ← parse_single_json_node s
                        match node with
                        | some n => pure (acc ++ [n])
                        | Option.none => pure acc) []
                  | _ => pure []
              | _ => pure [])
      -- the loop over 'proxies'/'nodes'/'configs' always runs
      ["proxies", "nodes", "configs"].foldlM (fun acc key => do
        match jsonData with
        | .dict d =>
            match alistGet d key with
            | some (.list items) =>
                items.foldlM (fun acc2 item => do
                  let node ← parse_single_json_node item
                  match node with
                  | some n => pure (acc2 ++ [n])
                  | Option.none => pure acc2) acc
            | _ => pure acc
        | _ => pure acc) start
  | _ => return []

/-- The type of the `yaml.safe_load` collaborator (third-party; passed in
as a parameter; a parse failure is an exception, an empty document is
`None`). -/
def SafeLoad : Type := String → Except PyErr PyVal

/-- Python `needle in v` for a string needle against a YAML document
value: key lookup on dicts, substring on strings, membership on lists,
`TypeError` otherwise. -/
def pyContains (v : PyVal) (needle : String) : Except PyErr Bool :=
  match v with
  | .dict d => .ok (alistGet d needle).isSome
  | .str s => .ok (strHasSub s needle)
  | .list l => .ok (l.any (fun x => pyEqStr x needle))
  | _ => .error .typeError

/-- `v[key]` for a string key: only dicts support it. -/
def pySubscript (v : PyVal) (key : String) : Except PyErr PyVal :=
  match v with
  | .dict d =>
      match alistGet d key with
      | some x => .ok x
      | Option.none => .error .keyError
  | _ => .error .typeError

/-- The body of `parse_clash_yaml` — everything inside its `try`. -/
def parse_clash_yaml_body (sl : SafeLoad) (content : String) : Except PyErr PyVal := do
  let data ← sl content
  if ¬ pyTruthy data then return .list []
  let hasProxies ← pyContains data "proxies"
  if hasProxies then
    pySubscript data "proxies"
  else do
    let rec tryKeys (keys : List String) : Except PyErr PyVal :=
      match keys with
      | [] => .ok (.list [])
      | k :: rest => do
          let has ← pyContains data k
          if has then do
            let v ← pySubscript data k
            match v with
            | .list l => pure (.list l)
            | _ => tryKeys rest
          else tryKeys rest
    tryKeys ["proxy-providers", "Proxy", "proxys"]

/-- `parse_clash_yaml`: the body under `except Exception: return []`.
It therefore never raises — the crucial fact behind claim C8. -/
def parse_clash_yaml_exc (sl : SafeLoad) (content : String) : Except PyErr PyVal :=
  match parse_clash_yaml_body sl content with
  | .ok v => .ok v
  | .error _ => .ok (.list [])

/-! ## `proxy_node.py`: the cascading extractor -/

/-- `common/constants.py` `SUPPORTED_PROTOCOLS`. -/
def SUPPORTED_PROTOCOLS : List String :=
  ["vmess://", "trojan://", "vless://", "ss://", "ssr://", "http://",
   "https://", "socks://", "socks5://", "hysteria://", "wireguard://"]

/-- The YAML heuristic indicator tokens of strategy 2. -/
def yamlIndicators : List String :=
  ["proxies:", "Proxy:", "proxy:", "proxy-providers:",
   "port:", "socks-port:", "allow-lan:", "mode:",
   "type: vmess", "type: ss", "type: trojan", "type: vless"]

/-- The external collaborators of `extract_nodes`: `json.loads`,
`yaml.safe_load`, and the `re` operations whose patterns are not plain
character classes (`re.findall` over the raw text in strategy 3, the two
HTML/comment-stripping substitutions, the `proxies:` block search of the
YAML fallback, and the JSON fragment findall). Each field is invoked
exactly where the Python source invokes the corresponding library call. -/
structure ExtractEnv where
  jsonLoads : JsonLoads
  safeLoad : SafeLoad
  findall : String → String → List String
  cleanYamlHtml : String → String
  cleanJsonContent : String → String
  searchProxiesBlock : String → Option String
  findJsonFragments : String → List String

/-- Strategy 1 (Base64): strip whitespace, keep only the Base64 alphabet,
pad, decode, and if any supported scheme occurs in the decoded text parse
each line that starts with a scheme. Decode errors are swallowed by the
inner `try`. -/
def b64Strat (jl : JsonLoads) (content : String) : List PyVal :=
  let cleaned : String := ⟨content.data.filter (fun c => ¬ isPySpace c)⟩
  let cleaned : String := ⟨cleaned.data.filter (fun c => isB64Char c || c = '=')⟩
  let padded : String :=
    if cleaned.data.length % 4 ≠ 0 then
      ⟨cleaned.data ++ List.replicate (4 - cleaned.data.length % 4) '='⟩
    else cleaned
  match b64decode padded with
  | .error _ => []
  | .ok bytes =>
      let decoded := utf8DecodeIgnore bytes
      if SUPPORTED_PROTOCOLS.any (fun p => strHasSub decoded p) then
        (strSplitAll decoded '\n').foldl (fun acc line =>
          let line := strStrip line
          if SUPPORTED_PROTOCOLS.any (fun p => strStartsWith line p) then
            match parse_v2ray_uri jl line with
            | some node => acc ++ [node]
            | Option.none => acc
          else acc) []
      else []

/-- `nodes.extend(v)` for a Python value `v`: lists extend by elements,
strings by characters, dicts by keys; anything else raises `TypeError`
(which is what makes the YAML fallback reachable at all — but never on a
parse failure). -/
def pyExtend (nodes : List PyVal) (v : PyVal) : Except PyErr (List PyVal) :=
  match v with
  | .list l => .ok (nodes ++ l)
  | .str s => .ok (nodes ++ s.data.map (fun c => .str ⟨[c]⟩))
  | .dict d => .ok (nodes ++ d.map (fun p => .str p.1))
  | _ => .error .typeError

/-- Strategy 2 (YAML) with an explicit flag recording whether the
`except` branch — the regex re-extraction of the `proxies:` block — was
entered. -/
def yamlStratT (env : ExtractEnv) (content : String) : List PyVal × Bool :=
  let cleaned := env.cleanYamlHtml content
  if yamlIndicators.any (fun ind => strHasSub cleaned ind) then
    match (do
            let yamlNodes ← parse_clash_yaml_exc env.safeLoad cleaned
            if pyTruthy yamlNodes then pyExtend [] yamlNodes else pure []
           : Except PyErr (List PyVal)) with
    | .ok ns => (ns, false)
    | .error _ =>
        let ns :=
          match env.searchProxiesBlock cleaned with
          | some grp =>
              let proxiesYaml := "proxies:\n" ++ grp
              match (do
                      let yamlNodes ← parse_clash_yaml_exc env.safeLoad proxiesYaml
                      if pyTruthy yamlNodes then pyExtend [] yamlNodes else pure []
                     : Except PyErr (List PyVal)) with
              | .ok ns2 => ns2
              | .error _ => []
          | Option.none => []
        (ns, true)
  else ([], false)

def yamlStrat (env : ExtractEnv) (content : String) : List PyVal :=
  (yamlStratT env content).1

/-- An apostrophe character for regex pattern strings. -/
def squoteStr : String := ⟨[Char.ofNat 39]⟩

/-- Strategy 3 (regex over raw text): per-protocol `re.findall`, feeding
each match to `parse_v2ray_uri`. -/
def regexStrat (env : ExtractEnv) (content : String) : List PyVal :=
  SUPPORTED_PROTOCOLS.foldl (fun acc protocol =>
    let found :=
      if protocol = "vmess://" then
        env.findall "vmess://[A-Za-z0-9+/=]+" content
      else
        env.findall (protocol ++ "[^\"" ++ squoteStr ++ "<>\\s]+") content
    found.foldl (fun acc2 uri =>
      match parse_v2ray_uri env.jsonLoads uri with
      | some node => acc2 ++ [node]
      | Option.none => acc2) acc) []

/-- Strategy 4 (JSON): whole-document parse; on `JSONDecodeError`, try
each regex-extracted fragment, stopping at the first that yields nodes;
any other exception is swallowed by the strategy's outer `try`. -/
def jsonStrat (env : ExtractEnv) (content : String) : List PyVal :=
  let cleaned := env.cleanJsonContent content
  match env.jsonLoads cleaned with
  | .ok jsonData =>
      (match parse_json_nodes jsonData with
       | .ok ns => ns
       | .error _ => [])
  | .error .jsonDecodeError =>
      let rec fragLoop : List String → List PyVal
        | [] => []
        | f :: rest =>
            match env.jsonLoads f with
            | .ok v =>
                (match parse_json_nodes v with
                 | .ok ns => if ns.length > 0 then ns else fragLoop rest
                 | .error _ => fragLoop rest)
            | .error _ => fragLoop rest
      fragLoop (env.findJsonFragments cleaned)
  | .error _ => []

/-- `extract_nodes(content)`: the four strategies in fixed order, each
guarded by "return as soon as `nodes` is nonempty". -/
def extract_nodes (env : ExtractEnv) (content : String) : List PyVal :=
  if ¬ pyTruthy (.str content) then []
  else
    let nodes := b64Strat env.jsonLoads content
    if nodes.length > 0 then nodes
    else
      let nodes := nodes ++ yamlStrat env content
      if nodes.length > 0 then nodes
      else
        let nodes := nodes ++ regexStrat env content
        if nodes.length > 0 then nodes
        else
          let nodes := nodes ++ jsonStrat env content
          if nodes.length > 0 then nodes else []

/-! ## `utils/utils.py`: `deduplicate_v2ray_nodes` -/

/-- The `f"{node['server']}:{node['port']}"` identity key; raises
`KeyError` exactly when the subscript does. -/
def nodeKeyE (node : PyVal) : Except PyErr String := do
  let server ← pyDictReq node "server"
  let port ← pyDictReq node "port"
  return pyStr server ++ ":" ++ pyStr port

/-- The loop of `deduplicate_v2ray_nodes` with its `seen` set (modelled
as the list of keys added so far). -/
def dedupGo (seen : List String) : List PyVal → Except PyErr (List PyVal)
  | [] => .ok []
  | node :: rest =>
      match nodeKeyE node with
      | .error e => .error e
      | .ok key =>
          if key ≠ "" ∧ key ∉ seen then
            match dedupGo (key :: seen) rest with
            | .error e => .error e
            | .ok tail => .ok (node :: tail)
          else dedupGo seen rest

def deduplicate_v2ray_nodes (nodes : List PyVal) : Except PyErr (List PyVal) :=
  dedupGo [] nodes

/-! ## `tester.py`: config generation and the probe

The probe's external effects (temp-dir creation, port allocation, process
spawn/terminate/kill, directory removal) are recorded as an event trace;
their outcomes (`find_available_port`'s port, the spawn result, each HTTP
request's outcome, the elapsed-time reading, whether `proc.wait` times
out) are supplied by a `ProbeEnv`. -/

/-- `_common_stream_settings(node, outbound)`: builds the
`streamSettings` value (the `setdefault` always inserts, since every
caller passes an outbound without that key) and the conditional
TLS/transport blocks. Nested `.get` defaults are evaluated eagerly, so
`node['server']` is subscripted even when `sni` is present — exactly as
in Python. -/
def commonStreamSettings (node outbound : PyVal) : Except PyErr PyVal := do
  let net ← pyDictGetD node "network" .none
  let ssl ← pyDictGetD node "tls" (.bool false)
  let ss0 : PyVal := .dict [("network", net),
    ("security", .str (if pyTruthy ssl then "tls" else "none"))]
  let ss1 ←
    if pyTruthy ssl then do
      let server ← pyDictReq node "server"
      let hostD ← pyDictGetD node "host" server
      let sni ← pyDictGetD node "sni" hostD
      let ai ← pyDictGetD node "allowInsecure" (.bool false)
      pure (dictSet ss0 "tlsSettings"
        (.dict [("serverName", sni), ("allowInsecure", ai)]))
    else pure ss0
  let ss2 ←
    if pyEqStr net "ws" then do
      let path ← pyDictGetD node "path" (.str "/")
      let server ← pyDictReq node "server"
      let host ← pyDictGetD node "host" server
      pure (dictSet ss1 "wsSettings"
        (.dict [("path", path), ("headers", .dict [("Host", host)])]))
    else if pyEqStr net "grpc" then do
      let svc ← pyDictGetD node "path" (.str "")
      let mm ← pyDictGetD node "multiMode" (.bool false)
      pure (dictSet ss1 "grpcSettings"
        (.dict [("serviceName", svc), ("multiMode", mm)]))
    else if pyEqStr net "h2" then do
      let path ← pyDictGetD node "path" (.str "/")
      let server ← pyDictReq node "server"
      let host ← pyDictGetD node "host" server
      pure (dictSet ss1 "httpSettings"
        (.dict [("path", path), ("host", .list [host])]))
    else if pyEqStr net "quic" then do
      let sec ← pyDictGetD node "quicSecurity" (.str "none")
      let key ← pyDictGetD node "quicKey" (.str "")
      let ht ← pyDictGetD node "headerType" (.str "none")
      pure (dictSet ss1 "quicSettings"
        (.dict [("security", sec), ("key", key), ("header", .dict [("type", ht)])]))
    else do
      let ht ← pyDictGetD node "headerType" .none
      if pyEqStr net "tcp" ∧ pyEqStr ht "http" then do
        let path ← pyDictGetD node "path" (.str "/")
        let host ← pyDictGetD node "host" (.str "")
        pure (dictSet ss1 "tcpSettings"
          (.dict [("header", .dict [("type", .str "http"),
            ("request", .dict [("path", .list [path]),
              ("headers", .dict [("Host", .list [host])])])])]))
      else pure ss1
  return dictSet outbound "streamSettings" ss2

def buildVmess (node : PyVal) : Except PyErr PyVal := do
  let server ← pyDictReq node "server"
  let port ← pyDictReq node "port"
  let uuid ← pyDictReq node "uuid"
  let aid ← pyDictGetD node "alterId" (.int 0)
  let sec ← pyDictGetD node "cipher" (.str "auto")
  let outbound : PyVal := .dict [("protocol", .str "vmess"),
    ("settings", .dict [("vnext", .list [.dict [("address", server),
      ("port", port), ("users", .list [.dict [("id", uuid),
        ("alterId", aid), ("security", sec)]])]])])]
  commonStreamSettings node outbound

def buildTrojan (node : PyVal) : Except PyErr PyVal := do
  let server ← pyDictReq node "server"
  let port ← pyDictReq node "port"
  let password ← pyDictReq node "password"
  let outbound : PyVal := .dict [("protocol", .str "trojan"),
    ("settings", .dict [("servers", .list [.dict [("address", server),
      ("port", port), ("password", password)]])])]
  commonStreamSettings node outbound

def buildVless (node : PyVal) : Except PyErr PyVal := do
  let server ← pyDictReq node "server"
  let port ← pyDictReq node "port"
  let uuid ← pyDictReq node "uuid"
  let flow ← pyDictGetD node "flow" (.str "")
  let outbound : PyVal := .dict [("protocol", .str "vless"),
    ("settings", .dict [("vnext", .list [.dict [("address", server),
      ("port", port), ("users", .list [.dict [("id", uuid),
        ("encryption", .str "none"), ("flow", flow)]])]])])]
  commonStreamSettings node outbound

def buildShadowsocks (node : PyVal) : Except PyErr PyVal := do
  let server ← pyDictReq node "server"
  let port ← pyDictReq node "port"
  let method ← pyDictReq node "cipher"
  let password ← pyDictGetD node "password" (.str "")
  return .dict [("protocol", .str "shadowsocks"),
    ("settings", .dict [("servers", .list [.dict [("address", server),
      ("port", port), ("method", method), ("password", password)]])])]

def buildSocks (node : PyVal) : Except PyErr PyVal := do
  let server ← pyDictReq node "server"
  let port ← pyDictReq node "port"
  let server0 : PyVal := .dict [("address", server), ("port", port)]
  let u ← pyDictGetD node "username" .none
  let pw ← pyDictGetD node "password" .none
  let server1 :=
    if pyTruthy u ∧ pyTruthy pw then
      dictSet server0 "users" (.list [.dict [("user", u), ("pass", pw)]])
    else server0
  return .dict [("protocol", .str "socks"),
    ("settings", .dict [("servers", .list [server1])])]

def buildHttp (node : PyVal) : Except PyErr PyVal := do
  let server ← pyDictReq node "server"
  let port ← pyDictReq node "port"
  let server0 : PyVal := .dict [("address", server), ("port", port)]
  let u ← pyDictGetD node "username" .none
  let pw ← pyDictGetD node "password" .none
  let server1 :=
    if pyTruthy u ∧ pyTruthy pw then
      dictSet server0 "users" (.list [.dict [("user", u), ("pass", pw)]])
    else server0
  return .dict [("protocol", .str "http"),
    ("settings", .dict [("servers", .list [server1])])]

/-- The `builders` table of `generate_v2ray_config`. -/
def getBuilder : String → Option (PyVal → Except PyErr PyVal)
  | "vmess" => some buildVmess
  | "trojan" => some buildTrojan
  | "vless" => some buildVless
  | "ss" => some buildShadowsocks
  | "socks" => some buildSocks
  | "http" => some buildHttp
  | "https" => some buildHttp
  | _ => Option.none

/-- The base config of `generate_v2ray_config`. -/
def v2rayBaseConfig (localPort : Int) : PyVal := .dict [
  ("inbounds", .list [.dict [("port", .int localPort),
    ("listen", .str "127.0.0.1"), ("protocol", .str "socks"),
    ("settings", .dict [("auth", .str "noauth"), ("udp", .bool true)]),
    ("sniffing", .dict [("enabled", .bool true),
      ("destOverride", .list [.str "http", .str "tls"])])]]),
  ("outbounds", .list []),
  ("log", .dict [("loglevel", .str "none")])]

/-- `generate_v2ray_config(node, local_port)`: `None` when the node's
`type` has no builder. -/
def generate_v2ray_config (node : PyVal) (localPort : Int) :
    Except PyErr (Option PyVal) := do
  let t ← pyDictReq node "type"
  let builder :=
    match t with
    | .str s => getBuilder s
    | _ => Option.none
  match builder with
  | Option.none => return Option.none
  | some b => do
      let outbound ← b node
      let base := v2rayBaseConfig localPort
      return some (if pyTruthy outbound then
        dictSet base "outbounds" (.list [outbound]) else base)

/-- `common/constants.py` `TEST_URLS`. -/
def TEST_URLS : List String := ["http://www.gstatic.com/generate_204"]

/-- Externally observable side effects of one probe. -/
inductive Ev where
  | mkdtemp
  | allocPort
  | writeConfig
  | spawn
  | terminate
  | kill
  | rmtree
deriving DecidableEq

/-- Outcome of one `requests.get` through the local proxy. -/
inductive HttpOut where
  | resp (status : Int)
  | reqExc      -- a requests.RequestException: caught, next URL
  | otherExc    -- any other exception: propagates through the finally

/-- Outcome of the `subprocess.Popen` call in `bootstrap_xray`. -/
inductive SpawnOut where
  | popenFail          -- Popen itself raises; no process exists
  | exitedEarly        -- process spawned but already exited at first poll
  | running            -- process spawned and running

/-- Environment of one `Tester._measure_latency` invocation. -/
structure ProbeEnv where
  port : Int                       -- find_available_port()
  installPathSet : Bool            -- xray_install_path is not None
  spawnOutcome : SpawnOut
  exitedAtCheck : Bool             -- proc.poll() at the in-try check
  httpGet : String → HttpOut
  elapsedMs : Int                  -- int((perf_counter() - start) * 1000)
  waitTimesOut : Bool              -- proc.wait(timeout=5) raises

/-- `XrayOrV2RayBooster.bootstrap_xray`: raises `RuntimeError` when no
install path is set or the process exits immediately; otherwise returns
the process handle (modelled as `Unit`). -/
def bootstrap_xray (env : ProbeEnv) : Except PyErr Unit × List Ev :=
  if ¬ env.installPathSet then (.error .runtimeError, [])
  else
    match env.spawnOutcome with
    | .popenFail => (.error .otherError, [])
    | .exitedEarly => (.error .runtimeError, [.spawn])
    | .running => (.ok (), [.spawn])

/-- The `for url in TEST_URLS` probe loop: first 200/204 wins, a
`RequestException` moves to the next URL, anything else propagates. -/
def httpLoop (env : ProbeEnv) : List String → Except PyErr Int
  | [] => .ok (-1)
  | url :: rest =>
      match env.httpGet url with
      | .resp s => if s = 200 ∨ s = 204 then .ok env.elapsedMs else httpLoop env rest
      | .reqExc => httpLoop env rest
      | .otherExc => .error .reqError

/-- The `finally` block: terminate, wait (kill on timeout), then remove
the temp directory. -/
def finallyEvs (env : ProbeEnv) : List Ev :=
  [Ev.terminate] ++ (if env.waitTimesOut then [Ev.kill] else []) ++ [Ev.rmtree]

/-- `Tester._measure_latency(node)` (the synchronous Tester): returns the
latency result (or a propagating exception) together with the trace of
effects. The temp directory is created and the local port allocated
before the config check; the `try/finally` protecting cleanup begins only
after `bootstrap_xray` has returned. -/
def measure_latency (env : ProbeEnv) (node : PyVal) : Except PyErr Int × List Ev :=
  let pre := [Ev.mkdtemp, Ev.allocPort]
  match generate_v2ray_config node env.port with
  | .error e => (.error e, pre)             -- raised before the try: no cleanup
  | .ok Option.none => (.ok (-1), pre)      -- unsupported kind: returns before the try
  | .ok (some _config) =>
      let pre := pre ++ [Ev.writeConfig]
      match bootstrap_xray env with
      | (.error e, evs) => (.error e, pre ++ evs)  -- raised before the try: no cleanup
      | (.ok _, evs) =>
          let pre := pre ++ evs
          let body : Except PyErr Int :=
            if env.exitedAtCheck then .ok (-1)
            else httpLoop env TEST_URLS
          (body, pre ++ finallyEvs env)

/-- `Tester._process_node(node)`, with the latency measurement abstracted
as `measure` and a flag recording whether the node reached the
measurement (i.e. passed the name/server guard). -/
def process_node_t (measure : PyVal → Except PyErr Int) (node : PyVal) :
    Except PyErr (Option PyVal × Bool) :=
  match pyDictGetD node "name" .none with
  | .error e => .error e
  | .ok nameV =>
      match pyDictGetD node "server" .none with
      | .error e => .error e
      | .ok serverV =>
          if ¬ pyTruthy nameV ∨ ¬ pyTruthy serverV then .ok (Option.none, false)
          else
            match measure node with
            | .error e => .error e
            | .ok latency =>
                if 0 ≤ latency ∧ latency ≤ 1000 then
                  .ok (some (dictSet (dictSet node "latency" (.int latency)) "name"
                    (.str (pyStr nameV ++ " [" ++ intToStr latency ++ "ms]"))), true)
                else .ok (Option.none, true)

/-- `Tester._process_node(node)` as its caller sees it. -/
def process_node (measure : PyVal → Except PyErr Int) (node : PyVal) :
    Except PyErr (Option PyVal) :=
  (process_node_t measure node).map Prod.fst

/-! ## Concrete instances used by the claim theorems -/

/-- A `json.loads` stand-in that rejects everything (no claim below
exercises the vmess JSON payload through it). -/
def jlNever : JsonLoads := fun _ => .error .jsonDecodeError

/-- A healthy probe environment: process spawns and stays up, the first
test URL answers 200 after 123 ms. -/
def probeEnvA : ProbeEnv :=
  ⟨12345, true, SpawnOut.running, false, fun _ => HttpOut.resp 200, 123, false⟩

/-- A second healthy probe environment (different port) for the C4
counterexample. -/
def probeEnvB : ProbeEnv :=
  ⟨23456, true, SpawnOut.running, false, fun _ => HttpOut.resp 204, 77, false⟩

/-- A decoded `ssr` node — a kind with no outbound builder. -/
def nodeSSRa : PyVal := .dict [("type", .str "ssr"), ("name", .str "n"),
  ("server", .str "h"), ("port", .int 1)]

/-- Another `ssr` node (no outbound builder), used for C4. -/
def nodeSSRb : PyVal := .dict [("type", .str "ssr"), ("name", .str "m"),
  ("server", .str "k"), ("port", .int 2)]

/-- The hysteria node (no `protocol`, no `auth`) whose encoding does not
decode back. -/
def hystNodeX : PyVal := .dict [("type", .str "hysteria"), ("name", .str "n"),
  ("server", .str "h"), ("port", .int 443)]

/-- The shadowsocks node with port 70000 produced by decoding
`ss://bTpwQGg6NzAwMDA=` (the Base64 of `m:p@h:70000`). -/
def ssNode70000 : PyVal := .dict [("type", .str "ss"), ("name", .str "Unknown"),
  ("server", .str "h"), ("port", .int 70000), ("cipher", .str "m"),
  ("password", .str "p")]

/-- `ssNode70000` after acceptance by `_process_node` with a measured
latency of 100 ms. -/
def ssNode70000Accepted : PyVal := .dict [("type", .str "ss"),
  ("name", .str "Unknown [100ms]"), ("server", .str "h"),
  ("port", .int 70000), ("cipher", .str "m"), ("password", .str "p"),
  ("latency", .int 100)]

/-- `yaml.safe_load` on the document `"proxies:\n- name: A\n"`: a dict
whose `proxies` list holds one map without `server`/`port`. -/
def safeLoadY : SafeLoad :=
  fun _ => .ok (.dict [("proxies", .list [.dict [("name", .str "A")]])])

/-- A `yaml.safe_load` stand-in whose full-document parse always fails. -/
def safeLoadFail : SafeLoad := fun _ => .error .yamlError

/-- Extractor environment for the C3 witness: the external collaborators
are inert (the Base64 strategy, which is fully concrete, already
succeeds, so none of them is ever consulted on the witness input). -/
def envW : ExtractEnv :=
  ⟨jlNever, fun _ => .ok PyVal.none, fun _ _ => [], id, id,
   fun _ => Option.none, fun _ => []⟩

/-- Extractor environment for the C8 witness: full-document YAML parsing
fails on every input. -/
def envY : ExtractEnv :=
  ⟨jlNever, safeLoadFail, fun _ _ => [], id, id, fun _ => Option.none, fun _ => []⟩

/-- The C3 witness input: the Base64 of `"trojan://pw@h:443?sni=n\n"`
immediately followed by the YAML indicator token `port:`. Cleaning keeps
`port` in the Base64 stream; the three extra decoded bytes are ill-formed
UTF-8 and are dropped by the `'ignore'` decode, so the Base64 strategy
still recovers exactly the trojan node. -/
def contentW : String := "dHJvamFuOi8vcHdAaDo0NDM/c25pPW4Kport:"

/-- The trojan node decoded from the C3 witness content. -/
def trojanNodeW : PyVal := .dict [("type", .str "trojan"), ("name", .str "n"),
  ("server", .str "h"), ("port", .int 443), ("password", .str "pw")]

/-- First strategy result that is nonempty — the specification's
description of the cascade, compared against `extract_nodes` in C3. -/
def firstNonempty : List (List PyVal) → List PyVal
  | [] => []
  | l :: ls => if l.isEmpty then firstNonempty ls else l

/-- Does node `m` carry identity key `k`? (Bool form used with
`List.find?` to express "the first input element with this key".) -/
def keyMatches (k : String) (m : PyVal) : Bool :=
  match nodeKeyE m with
  | .ok km => km == k
  | .error _ => false

/-- The witness node list for C6: three records, the last sharing
`(server, port)` with the first. -/
def xW : List PyVal :=
  [.dict [("server", .str "9.9.9.9"), ("port", .int 80), ("name", .str "a")],
   .dict [("server", .str "8.8.8.8"), ("port", .int 53)],
   .dict [("server", .str "9.9.9.9"), ("port", .int 80), ("name", .str "b")]]

/-- URI-safe characters for the trojan round-trip statement: printable
ASCII above space, excluding every delimiter that `urlsplit`, the
userinfo/hostinfo accessors and `parse_qs` key on
(`# % & + / : ; = ? @ [ ]`). -/
def uriSafeCh (c : Char) : Bool :=
  0x20 < c.toNat ∧ c.toNat < 0x7F ∧
  c.toNat ∉ [35, 37, 38, 43, 47, 58, 59, 61, 63, 64, 91, 93]

def uriSafeStr (s : String) : Bool := s.data.all uriSafeCh

/-- A trojan node dict exactly as `parse_v2ray_uri` builds one. -/
def mkTrojanNode (nm sv pw : String) (p : Nat) : PyVal :=
  .dict [("type", .str "trojan"), ("name", .str nm), ("server", .str sv),
         ("port", .int (Int.ofNat p)), ("password", .str pw)]

/-! ## Claim theorems -/

/-- **C1** (code bug): the claim says the temp directory is removed on
every exit of `Tester._measure_latency`. On the unsupported-kind path the
function returns `-1` before entering its `try/finally`: the trace of the
probe on an `ssr` node ends at `[mkdtemp, allocPort]` — the directory is
created and never removed (no process was launched). -/
theorem c1_tempdir_leak_on_unsupported_kind :
    measure_latency probeEnvA nodeSSRa = (.ok (-1), [Ev.mkdtemp, Ev.allocPort]) ∧
    Ev.mkdtemp ∈ (measure_latency probeEnvA nodeSSRa).2 ∧
    Ev.rmtree ∉ (measure_latency probeEnvA nodeSSRa).2 ∧
    Ev.spawn ∉ (measure_latency probeEnvA nodeSSRa).2 := by
  refine ⟨rfl, ?_, ?_, ?_⟩ <;> decide

/-- **C4** (counterexample): the claim says a node whose kind has no
outbound builder is rejected "without allocating a port". The probe on an
`ssr` node does allocate a local port (and creates the temp directory)
before the builder check. -/
theorem c4_counterexample_port_allocated :
    Ev.allocPort ∈ (measure_latency probeEnvB nodeSSRb).2 ∧
    (measure_latency probeEnvB nodeSSRb).1 = .ok (-1) := by
  exact ⟨by decide, rfl⟩

/-- **C4** (amended): for every node whose kind has no outbound builder
(`generate_v2ray_config` returns `None`), the probe returns invalid and
never spawns a process — but only after creating a temp directory and
allocating a local port, and it does not remove the temp directory. -/
theorem c4_amended_no_spawn (env : ProbeEnv) (node : PyVal)
    (h : generate_v2ray_config node env.port = .ok Option.none) :
    measure_latency env node = (.ok (-1), [Ev.mkdtemp, Ev.allocPort]) ∧
    Ev.spawn ∉ (measure_latency env node).2 := by
  have heq : measure_latency env node = (.ok (-1), [Ev.mkdtemp, Ev.allocPort]) := by
    unfold measure_latency
    rw [h]
  refine ⟨heq, ?_⟩
  rw [heq]
  decide

/-- Witness for `c4_amended_no_spawn` at the concrete `ssr` node. -/
theorem c4_amended_no_spawn_witness :
    measure_latency probeEnvB nodeSSRb = (.ok (-1), [Ev.mkdtemp, Ev.allocPort]) ∧
    Ev.spawn ∉ (measure_latency probeEnvB nodeSSRb).2 :=
  c4_amended_no_spawn probeEnvB nodeSSRb rfl

/-- **C2** (counterexample): encoding the valid hysteria node
`{type: hysteria, name: n, server: h, port: 443}` yields
`hysteria://h:443&peer=n` (no `?` before the first query parameter), and
decoding that URI returns `None` — no field survives, so
`decode(encode(node))` does not reproduce the wire-carried fields for
every supported kind. -/
theorem c2_counterexample_hysteria :
    node_to_v2ray_uri hystNodeX = .ok (some "hysteria://h:443&peer=n") ∧
    parse_v2ray_uri jlNever "hysteria://h:443&peer=n" = Option.none :=
  ⟨rfl, rfl⟩

/-- **C9** (counterexample): the URI `ss://bTpwQGg6NzAwMDA=` (Base64 of
`m:p@h:70000`) decodes to a node with port 70000 — outside `[1, 65535]` —
and `Tester._process_node` still probes it (the reached-measurement flag
is `true`) and even accepts it, contradicting the claim that such nodes
are discarded before the validation stage. -/
theorem c9_counterexample_port_70000_probed :
    parse_v2ray_uri jlNever "ss://bTpwQGg6NzAwMDA=" = some ssNode70000 ∧
    process_node_t (fun _ => .ok 100) ssNode70000 = .ok (some ssNode70000Accepted, true) ∧
    ¬ ((70000 : Int) ≤ 65535) :=
  ⟨rfl, rfl, by decide⟩

/-- **C7** (confirmed): `parse_v2ray_uri` never lets an exception reach
its caller — the outer `try/except Exception: return None` converts every
error of the body into `None`, so the call always evaluates to `ok` of a
node-or-`None`. -/
theorem c7_parse_never_raises (jl : JsonLoads) (uri : String) :
    ∃ r : Option PyVal, parse_v2ray_uri_exc jl uri = .ok r ∧
      parse_v2ray_uri jl uri = r := by
  unfold parse_v2ray_uri parse_v2ray_uri_exc
  cases parse_v2ray_uri_body jl uri with
  | ok r => exact ⟨r, rfl, rfl⟩
  | error e => exact ⟨Option.none, rfl, rfl⟩

/-- **C10** (confirmed): `deduplicate_v2ray_nodes` raises `KeyError` on a
list containing a dict without `server`/`port`, and such dicts do arise:
`parse_clash_yaml` on `"proxies:\n- name: A\n"` (whose `yaml.safe_load`
value is supplied by `safeLoadY`) returns the `proxies` items without
validating them. -/
theorem c10_dedup_keyerror_reachable :
    deduplicate_v2ray_nodes [.dict [("name", .str "A")]] = .error .keyError ∧
    parse_clash_yaml_exc safeLoadY "proxies:\n- name: A\n" =
      .ok (.list [.dict [("name", .str "A")]]) :=
  ⟨rfl, rfl⟩

/-- **C5** (confirmed): `Tester._process_node` returns an accepted node
only when the measured latency lies in `[0, 1000]`; on acceptance it sets
`latency` and appends `" [<latency>ms]"` to the name; when the
measurement completes outside that range it returns `None`. -/
theorem c5_latency_gate (measure : PyVal → Except PyErr Int) (node : PyVal) :
    (∀ r, process_node measure node = .ok (some r) →
       ∃ l nameV, measure node = .ok l ∧ 0 ≤ l ∧ l ≤ 1000 ∧
         pyDictGetD node "name" PyVal.none = .ok nameV ∧
         r = dictSet (dictSet node "latency" (.int l)) "name"
               (.str (pyStr nameV ++ " [" ++ intToStr l ++ "ms]"))) ∧
    (∀ nameV serverV l, pyDictGetD node "name" PyVal.none = .ok nameV →
       pyDictGetD node "server" PyVal.none = .ok serverV →
       measure node = .ok l → ¬ (0 ≤ l ∧ l ≤ 1000) →
       process_node measure node = .ok Option.none) := by
  constructor
  · intro r h
    unfold process_node at h
    cases hpt : process_node_t measure node with
    | error e => rw [hpt] at h; simp [Except.map] at h
    | ok p =>
      rw [hpt] at h
      simp only [Except.map, Except.ok.injEq] at h
      unfold process_node_t at hpt
      split at hpt
      · cases hpt
      next nameV hn =>
        split at hpt
        · cases hpt
        next serverV hs =>
          split at hpt
          · cases hpt
            simp at h
          · split at hpt
            · cases hpt
            next l hm =>
              split at hpt
              next hr =>
                cases hpt
                simp only [Option.some.injEq] at h
                exact ⟨l, nameV, hm, hr.1, hr.2, hn, h.symm⟩
              next hr =>
                cases hpt
                simp at h
  · intro nameV serverV l hn hs hm hr
    unfold process_node process_node_t
    rw [hn, hs]
    by_cases hg : pyTruthy nameV = false ∨ pyTruthy serverV = false
    · simp [Except.map, hg]
    · simp only [not_or, Bool.not_eq_false] at hg
      simp [Except.map, hg.1, hg.2, hm, hr]

/-- Witness for `c5_latency_gate`: the trojan node `{n, h, 443, pw}` with
a measurement of 100 ms is accepted with `latency = 100` and the
annotated name. -/
theorem c5_latency_gate_witness :
    ∃ l nameV, (fun _ => (.ok 100 : Except PyErr Int)) trojanNodeW = .ok l ∧
      0 ≤ l ∧ l ≤ 1000 ∧
      pyDictGetD trojanNodeW "name" PyVal.none = .ok nameV ∧
      some (dictSet (dictSet trojanNodeW "latency" (.int 100)) "name"
        (.str "n [100ms]")) =
        some (dictSet (dictSet trojanNodeW "latency" (.int l)) "name"
          (.str (pyStr nameV ++ " [" ++ intToStr l ++ "ms]"))) := by
  obtain ⟨l, nameV, h1, h2, h3, h4, h5⟩ :=
    (c5_latency_gate (fun _ => .ok 100) trojanNodeW).1
      (dictSet (dictSet trojanNodeW "latency" (.int 100)) "name" (.str "n [100ms]"))
      rfl
  exact ⟨l, nameV, h1, h2, h3, h4, by rw [← h5]⟩

/-- **C9** (amended): `Tester._process_node` guards only on a truthy
`name` and `server` before probing; any node reaching the measurement has
both, but no port-range check exists, so decoded nodes with a port
outside `[1, 65535]` can be probed (see the counterexample). -/
theorem c9_amended_probe_guard (measure : PyVal → Except PyErr Int)
    (node : PyVal) (res : Option PyVal)
    (h : process_node_t measure node = .ok (res, true)) :
    ∃ nameV serverV,
      pyDictGetD node "name" PyVal.none = .ok nameV ∧ pyTruthy nameV = true ∧
      pyDictGetD node "server" PyVal.none = .ok serverV ∧ pyTruthy serverV = true := by
  unfold process_node_t at h
  split at h
  · cases h
  next nameV hn =>
    split at h
    · cases h
    next serverV hs =>
      split at h
      next hg =>
        simp at h
      next hg =>
        simp only [not_or, Bool.not_eq_true, Bool.not_eq_false] at hg
        exact ⟨nameV, serverV, hn, hg.1, hs, hg.2⟩

/-- Witness for `c9_amended_probe_guard` at the port-70000 node. -/
theorem c9_amended_probe_guard_witness :
    ∃ nameV serverV,
      pyDictGetD ssNode70000 "name" PyVal.none = .ok nameV ∧ pyTruthy nameV = true ∧
      pyDictGetD ssNode70000 "server" PyVal.none = .ok serverV ∧ pyTruthy serverV = true :=
  c9_amended_probe_guard (fun _ => .ok 100) ssNode70000 (some ssNode70000Accepted) rfl

/-- **C8** (code bug): whenever the full-document `yaml.safe_load` fails,
`parse_clash_yaml` swallows the exception and returns `[]`, so the
`except` branch of the YAML strategy — the regex re-extraction of the
`proxies:` block — never executes (flag `false`) and the strategy yields
no nodes, contrary to the claimed fallback re-parse. -/
theorem c8_no_fallback_on_parse_failure (env : ExtractEnv) (content : String)
    (h : ∃ e, env.safeLoad (env.cleanYamlHtml content) = .error e) :
    yamlStratT env content = ([], false) := by
  obtain ⟨e, he⟩ := h
  have hpc : parse_clash_yaml_exc env.safeLoad (env.cleanYamlHtml content) =
      .ok (.list []) := by
    unfold parse_clash_yaml_exc parse_clash_yaml_body
    rw [he]
    rfl
  unfold yamlStratT
  dsimp only
  split
  · rw [hpc]
    rfl
  · rfl

/-- Witness for `c8_no_fallback_on_parse_failure`: a document carrying
the `proxies:` indicator whose full-document parse fails yields no YAML
nodes and never enters the fallback branch. -/
theorem c8_no_fallback_witness :
    yamlStratT envY "proxies:\n- broken" = ([], false) :=
  c8_no_fallback_on_parse_failure envY "proxies:\n- broken" ⟨.yamlError, rfl⟩

/-- **C3** (confirmed): `extract_nodes` is exactly the fixed cascade
Base64 → YAML → Regex → JSON with first-nonempty short-circuit; in
particular, whenever the Base64 strategy yields at least one node, the
result is exactly the Base64-derived node list, regardless of what the
other strategies would produce. -/
theorem c3_cascade_order (env : ExtractEnv) (content : String) :
    (content ≠ "" → extract_nodes env content =
       firstNonempty [b64Strat env.jsonLoads content, yamlStrat env content,
                      regexStrat env content, jsonStrat env content]) ∧
    (b64Strat env.jsonLoads content ≠ [] →
       extract_nodes env content = b64Strat env.jsonLoads content) := by
  have main : content ≠ "" → extract_nodes env content =
      firstNonempty [b64Strat env.jsonLoads content, yamlStrat env content,
                     regexStrat env content, jsonStrat env content] := by
    intro hc
    by_cases h1 : b64Strat env.jsonLoads content = []
    · by_cases h2 : yamlStrat env content = []
      · by_cases h3 : regexStrat env content = []
        · by_cases h4 : jsonStrat env content = []
          · simp [extract_nodes, firstNonempty, pyTruthy, hc, h1, h2, h3, h4]
          · simp [extract_nodes, firstNonempty, pyTruthy, hc, h1, h2, h3, h4,
              List.length_pos, List.isEmpty_iff]
        · simp [extract_nodes, firstNonempty, pyTruthy, hc, h1, h2, h3,
            List.length_pos, List.isEmpty_iff]
      · simp [extract_nodes, firstNonempty, pyTruthy, hc, h1, h2,
          List.length_pos, List.isEmpty_iff]
    · simp [extract_nodes, firstNonempty, pyTruthy, hc, h1,
        List.length_pos, List.isEmpty_iff]
  refine ⟨main, fun hb => ?_⟩
  have hc : content ≠ "" := by
    intro hceq
    apply hb
    rw [hceq]
    rfl
  rw [main hc]
  unfold firstNonempty
  rw [if_neg (by simpa [List.isEmpty_iff] using hb)]

/-- Witness for `c3_cascade_order`: `contentW` is the Base64 of a trojan
URI followed by the YAML indicator `port:`; the Base64 strategy extracts
the trojan node and `extract_nodes` returns exactly that list. -/
theorem c3_cascade_order_witness :
    strHasSub contentW "port:" = true ∧
    b64Strat envW.jsonLoads contentW = [trojanNodeW] ∧
    extract_nodes envW contentW = b64Strat envW.jsonLoads contentW :=
  ⟨rfl, rfl, (c3_cascade_order envW contentW).2 (by
    rw [show b64Strat envW.jsonLoads contentW = [trojanNodeW] from rfl]
    exact List.cons_ne_nil _ _)⟩

/-! ## Lemmas for the deduplicator (C6) -/

/-- A node identity key always contains `:` and is therefore nonempty. -/
theorem nodeKey_ne_empty {n : PyVal} {k : String} (h : nodeKeyE n = .ok k) :
    k ≠ "" := by
  unfold nodeKeyE at h
  cases hs : pyDictReq n "server" with
  | error e => rw [hs] at h; cases h
  | ok sv =>
    rw [hs] at h
    cases hp : pyDictReq n "port" with
    | error e => rw [hp] at h; cases h
    | ok pv =>
      rw [hp] at h
      simp only [bind, Except.bind, pure, Except.pure, Except.ok.injEq] at h
      subst h
      intro hkEmpty
      have hlen := congrArg String.length hkEmpty
      rw [String.length_append, String.length_append] at hlen
      have h1 : (":" : String).length = 1 := rfl
      have h0 : ("" : String).length = 0 := rfl
      rw [h1, h0] at hlen
      omega

/-- `dedupGo` is total on lists whose elements carry both keys. -/
theorem dedupGo_total (seen : List String) (ns : List PyVal)
    (h : ∀ n ∈ ns, ∃ k, nodeKeyE n = .ok k) :
    ∃ ys, dedupGo seen ns = .ok ys := by
  induction ns generalizing seen with
  | nil => exact ⟨[], rfl⟩
  | cons node rest ih =>
    obtain ⟨k, hk⟩ := h node (by simp)
    have hrest : ∀ n ∈ rest, ∃ k, nodeKeyE n = .ok k :=
      fun n hn => h n (by simp [hn])
    unfold dedupGo
    simp only [hk]
    by_cases hcond : k ≠ "" ∧ k ∉ seen
    · rw [if_pos hcond]
      obtain ⟨ys, hys⟩ := ih (k :: seen) hrest
      exact ⟨node :: ys, by rw [hys]⟩
    · rw [if_neg hcond]
      exact ih seen hrest

/-- The output of `dedupGo` is a sublist of its input: relative order is
preserved and nothing new appears. -/
theorem dedupGo_sublist (seen : List String) (ns ys : List PyVal)
    (h : dedupGo seen ns = .ok ys) : ys.Sublist ns := by
  induction ns generalizing seen ys with
  | nil => cases h; exact List.Sublist.refl _
  | cons node rest ih =>
    unfold dedupGo at h
    cases hk : nodeKeyE node with
    | error e => rw [hk] at h; cases h
    | ok k =>
      simp only [hk] at h
      by_cases hcond : k ≠ "" ∧ k ∉ seen
      · rw [if_pos hcond] at h
        cases htail : dedupGo (k :: seen) rest with
        | error e => rw [htail] at h; cases h
        | ok tail =>
          rw [htail] at h
          cases h
          exact List.Sublist.cons₂ node (ih _ _ htail)
      · rw [if_neg hcond] at h
        exact List.Sublist.cons node (ih _ _ h)

/-- Every element of the output of `dedupGo seen ns` carries a key, that
key is outside `seen`, and the element is the first element of `ns` with
its key. -/
theorem dedupGo_first (seen : List String) (ns ys : List PyVal)
    (h : dedupGo seen ns = .ok ys) :
    ∀ r ∈ ys, ∃ kr, nodeKeyE r = .ok kr ∧ kr ∉ seen ∧
      ns.find? (keyMatches kr) = some r := by
  induction ns generalizing seen ys with
  | nil => cases h; intro r hr; cases hr
  | cons node rest ih =>
    unfold dedupGo at h
    cases hk : nodeKeyE node with
    | error e => rw [hk] at h; cases h
    | ok k =>
      simp only [hk] at h
      by_cases hcond : k ≠ "" ∧ k ∉ seen
      · rw [if_pos hcond] at h
        cases htail : dedupGo (k :: seen) rest with
        | error e => rw [htail] at h; cases h
        | ok tail =>
          rw [htail] at h
          cases h
          intro r hr
          rcases List.mem_cons.mp hr with hr | hr
          · subst hr
            refine ⟨k, hk, hcond.2, ?_⟩
            rw [List.find?_cons_of_pos]
            simp [keyMatches, hk]
          · obtain ⟨kr, hkr, hnotin, hfind⟩ := ih _ _ htail r hr
            have hkrk : kr ≠ k := fun he => hnotin (he ▸ List.mem_cons_self _ _)
            refine ⟨kr, hkr, fun hin => hnotin (List.mem_cons_of_mem _ hin), ?_⟩
            rw [List.find?_cons_of_neg, hfind]
            simp [keyMatches, hk, hkrk.symm]
      · rw [if_neg hcond] at h
        intro r hr
        obtain ⟨kr, hkr, hnotin, hfind⟩ := ih _ _ h r hr
        have hkin : k ∈ seen := by
          by_contra hkn
          exact hcond ⟨nodeKey_ne_empty hk, hkn⟩
        have hkrk : kr ≠ k := fun he => hnotin (he ▸ hkin)
        refine ⟨kr, hkr, hnotin, ?_⟩
        rw [List.find?_cons_of_neg, hfind]
        simp [keyMatches, hk, hkrk.symm]

/-- Every input element whose key is not yet seen has a representative
with the same key in the output. -/
theorem dedupGo_cover (seen : List String) (ns ys : List PyVal)
    (h : dedupGo seen ns = .ok ys) :
    ∀ n ∈ ns, ∀ kn, nodeKeyE n = .ok kn → kn ∉ seen →
      ∃ r ∈ ys, nodeKeyE r = .ok kn := by
  induction ns generalizing seen ys with
  | nil => intro n hn; cases hn
  | cons node rest ih =>
    unfold dedupGo at h
    cases hk : nodeKeyE node with
    | error e => rw [hk] at h; cases h
    | ok k =>
      simp only [hk] at h
      by_cases hcond : k ≠ "" ∧ k ∉ seen
      · rw [if_pos hcond] at h
        cases htail : dedupGo (k :: seen) rest with
        | error e => rw [htail] at h; cases h
        | ok tail =>
          rw [htail] at h
          cases h
          intro n hn kn hkn hnotin
          rcases List.mem_cons.mp hn with hn | hn
          · exact ⟨node, List.mem_cons_self _ _, hn ▸ hkn⟩
          · by_cases hkk : kn = k
            · exact ⟨node, List.mem_cons_self _ _, hkk ▸ hk⟩
            · obtain ⟨r, hr, hrk⟩ := ih _ _ htail n hn kn hkn
                (by simp [hkk, hnotin])
              exact ⟨r, List.mem_cons_of_mem _ hr, hrk⟩
      · rw [if_neg hcond] at h
        have hkin : k ∈ seen := by
          by_contra hkn
          exact hcond ⟨nodeKey_ne_empty hk, hkn⟩
        intro n hn kn hkn hnotin
        rcases List.mem_cons.mp hn with hn | hn
        · rw [hn] at hkn
          rw [hkn] at hk
          cases hk
          exact absurd hkin hnotin
        · exact ih _ _ h n hn kn hkn hnotin

/-- The keys of the output of `dedupGo` are pairwise distinct. -/
theorem dedupGo_pairwise (seen : List String) (ns ys : List PyVal)
    (h : dedupGo seen ns = .ok ys) :
    ys.Pairwise (fun a b => ∀ ka kb, nodeKeyE a = .ok ka → nodeKeyE b = .ok kb →
      ka ≠ kb) := by
  induction ns generalizing seen ys with
  | nil => cases h; exact List.Pairwise.nil
  | cons node rest ih =>
    unfold dedupGo at h
    cases hk : nodeKeyE node with
    | error e => rw [hk] at h; cases h
    | ok k =>
      simp only [hk] at h
      by_cases hcond : k ≠ "" ∧ k ∉ seen
      · rw [if_pos hcond] at h
        cases htail : dedupGo (k :: seen) rest with
        | error e => rw [htail] at h; cases h
        | ok tail =>
          rw [htail] at h
          cases h
          refine List.Pairwise.cons ?_ (ih _ _ htail)
          intro b hb ka kb hka hkb
          obtain ⟨kr, hkr, hnotin, _⟩ := dedupGo_first _ _ _ htail b hb
          rw [hka] at hk
          cases hk
          rw [hkr] at hkb
          cases hkb
          exact fun he => hnotin (he ▸ List.mem_cons_self _ _)
      · rw [if_neg hcond] at h
        exact ih _ _ h

/-- `dedupGo` fixes any list whose element keys are defined, pairwise
distinct, and disjoint from `seen`. -/
theorem dedupGo_fixed (seen : List String) (ys : List PyVal)
    (hok : ∀ r ∈ ys, ∃ k, nodeKeyE r = .ok k)
    (hdisj : ∀ r ∈ ys, ∀ kr, nodeKeyE r = .ok kr → kr ∉ seen)
    (hpw : ys.Pairwise (fun a b => ∀ ka kb, nodeKeyE a = .ok ka →
      nodeKeyE b = .ok kb → ka ≠ kb)) :
    dedupGo seen ys = .ok ys := by
  induction ys generalizing seen with
  | nil => rfl
  | cons node rest ih =>
    obtain ⟨k, hk⟩ := hok node (List.mem_cons_self _ _)
    unfold dedupGo
    simp only [hk]
    rw [if_pos ⟨nodeKey_ne_empty hk, hdisj node (List.mem_cons_self _ _) k hk⟩]
    rw [ih (k :: seen)
      (fun r hr => hok r (List.mem_cons_of_mem _ hr))
      (fun r hr kr hkr => by
        intro hin
        rcases List.mem_cons.mp hin with he | hin2
        · exact (List.pairwise_cons.mp hpw).1 r hr k kr hk hkr he.symm
        · exact hdisj r (List.mem_cons_of_mem _ hr) kr hkr hin2)
      (List.pairwise_cons.mp hpw).2]

/-- **C6** (confirmed): on any node list whose elements carry `server`
and `port`, `deduplicate_v2ray_nodes` succeeds; it is idempotent, its
output is a sublist of the input (first-seen order preserved), every kept
record is the first input record with its `(server, port)` key
irrespective of other fields, and every input record has a
representative with its key in the output (the first occurrence wins). -/
theorem c6_dedup_idempotent_first_order (x : List PyVal)
    (h : ∀ n ∈ x, ∃ k, nodeKeyE n = .ok k) :
    ∃ y, deduplicate_v2ray_nodes x = .ok y ∧
      deduplicate_v2ray_nodes y = .ok y ∧
      y.Sublist x ∧
      (∀ r ∈ y, ∃ kr, nodeKeyE r = .ok kr ∧ x.find? (keyMatches kr) = some r) ∧
      (∀ n ∈ x, ∀ kn, nodeKeyE n = .ok kn → ∃ r ∈ y, nodeKeyE r = .ok kn) := by
  obtain ⟨y, hy⟩ := dedupGo_total [] x h
  refine ⟨y, hy, ?_, dedupGo_sublist _ _ _ hy, ?_, ?_⟩
  · exact dedupGo_fixed [] y
      (fun r hr => h r ((dedupGo_sublist _ _ _ hy).mem hr))
      (fun r _ kr _ => List.not_mem_nil kr)
      (dedupGo_pairwise _ _ _ hy)
  · intro r hr
    obtain ⟨kr, hkr, _, hfind⟩ := dedupGo_first _ _ _ hy r hr
    exact ⟨kr, hkr, hfind⟩
  · intro n hn kn hkn
    exact dedupGo_cover _ _ _ hy n hn kn hkn (List.not_mem_nil kn)

/-- Witness for `c6_dedup_idempotent_first_order` at the list `xW`. -/
theorem c6_dedup_witness :
    ∃ y, deduplicate_v2ray_nodes xW = .ok y ∧
      deduplicate_v2ray_nodes y = .ok y ∧
      y.Sublist xW ∧
      (∀ r ∈ y, ∃ kr, nodeKeyE r = .ok kr ∧ xW.find? (keyMatches kr) = some r) ∧
      (∀ n ∈ xW, ∀ kn, nodeKeyE n = .ok kn → ∃ r ∈ y, nodeKeyE r = .ok kn) :=
  c6_dedup_idempotent_first_order xW (by
    intro n hn
    simp only [xW, List.mem_cons, List.not_mem_nil, or_false] at hn
    rcases hn with h | h | h
    · exact ⟨"9.9.9.9:80", by rw [h]; rfl⟩
    · exact ⟨"8.8.8.8:53", by rw [h]; rfl⟩
    · exact ⟨"9.9.9.9:80", by rw [h]; rfl⟩)

/-! ## List lemmas for the URI round-trip (C2) -/

theorem listStartsWith_append (l1 l2 : List Char) :
    listStartsWith (l1 ++ l2) l1 = true := by
  induction l1 with
  | nil => cases l2 <;> rfl
  | cons c rest ih => simp [listStartsWith, ih]

theorem splitFirstSub_not_mem (l : List Char) (c : Char) (h : c ∉ l) :
    splitFirstSub l [c] = Option.none := by
  induction l with
  | nil => rfl
  | cons d rest ih =>
    have hdc : d ≠ c := fun he => h (he ▸ List.mem_cons_self _ _)
    have hrec := ih (fun hin => h (List.mem_cons_of_mem _ hin))
    simp [splitFirstSub, listStartsWith, hdc, hrec]

theorem splitFirstSub_char (l1 l2 : List Char) (c : Char) (h : c ∉ l1) :
    splitFirstSub (l1 ++ c :: l2) [c] = some (l1, l2) := by
  induction l1 with
  | nil => simp [splitFirstSub, listStartsWith]
  | cons d rest ih =>
    have hdc : d ≠ c := fun he => h (he ▸ List.mem_cons_self _ _)
    have hrec := ih (fun hin => h (List.mem_cons_of_mem _ hin))
    simp [splitFirstSub, listStartsWith, hdc, hrec]

theorem splitLastChar_char (l1 l2 : List Char) (c : Char)
    (h2 : c ∉ l2) :
    splitLastChar (l1 ++ c :: l2) c = some (l1, l2) := by
  unfold splitLastChar
  have : (l1 ++ c :: l2).reverse = l2.reverse ++ c :: l1.reverse := by
    simp [List.reverse_append]
  rw [this, splitFirstSub_char _ _ _ (by simpa using h2)]
  simp

theorem takeWhile_append_all {p : Char → Bool} (l1 l2 : List Char)
    (h : ∀ c ∈ l1, p c = true) :
    (l1 ++ l2).takeWhile p = l1 ++ l2.takeWhile p := by
  induction l1 with
  | nil => rfl
  | cons d rest ih =>
    simp [List.takeWhile, h d (List.mem_cons_self _ _),
      ih (fun c hc => h c (List.mem_cons_of_mem _ hc))]

theorem dropWhile_append_all {p : Char → Bool} (l1 l2 : List Char)
    (h : ∀ c ∈ l1, p c = true) :
    (l1 ++ l2).dropWhile p = l2.dropWhile p := by
  induction l1 with
  | nil => rfl
  | cons d rest ih =>
    simp [List.dropWhile, h d (List.mem_cons_self _ _),
      ih (fun c hc => h c (List.mem_cons_of_mem _ hc))]

theorem dropWhile_all_neg {p : Char → Bool} (l : List Char)
    (h : ∀ c ∈ l, p c = false) : l.dropWhile p = l := by
  cases l with
  | nil => rfl
  | cons d rest => simp [List.dropWhile, h d (List.mem_cons_self _ _)]

theorem filter_all_pos {p : Char → Bool} (l : List Char)
    (h : ∀ c ∈ l, p c = true) : l.filter p = l :=
  List.filter_eq_self.mpr h

theorem splitAllChar_not_mem (l : List Char) (c : Char) (h : c ∉ l) :
    splitAllChar l c = [l] := by
  induction l with
  | nil => rfl
  | cons d rest ih =>
    have hdc : d ≠ c := fun he => h (he ▸ List.mem_cons_self _ _)
    have hrec := ih (fun hin => h (List.mem_cons_of_mem _ hin))
    simp [splitAllChar, hdc, hrec]

theorem unquoteAux_no_escape (fuel : Nat) (l : List Char)
    (h : ∀ c ∈ l, c ≠ '%') (hf : l.length ≤ fuel) : unquoteAux fuel l = l := by
  induction fuel generalizing l with
  | zero =>
    cases l with
    | nil => rfl
    | cons d rest => simp at hf
  | succ fuel ih =>
    cases l with
    | nil => rfl
    | cons d rest =>
      have hd : d ≠ '%' := h d (List.mem_cons_self _ _)
      have hrec := ih rest (fun c hc => h c (List.mem_cons_of_mem _ hc))
        (by simpa using Nat.le_of_succ_le_succ hf)
      unfold unquoteAux
      split
      next heq => simp at heq
      next rest2 heq =>
        injection heq with h1 _
        exact absurd h1 hd
      next c2 rest2 heq =>
        injection heq with h1 h2
        subst h1
        subst h2
        rw [hrec]

/-! ## Decimal digit lemmas (C2) -/

theorem digitChar_spec (n : Nat) (h : n < 10) :
    uriSafeCh (digitChar n) = true ∧ isDigitCh (digitChar n) = true ∧
    (digitChar n).toNat = 48 + n := by
  interval_cases n <;> exact ⟨by decide, by decide, by decide⟩

theorem natToDigits_spec : ∀ fuel n, n < fuel →
    natToDigits fuel n ≠ [] ∧
    ∀ c ∈ natToDigits fuel n, uriSafeCh c = true ∧ isDigitCh c = true := by
  intro fuel
  induction fuel with
  | zero => intro n h; omega
  | succ fuel ih =>
    intro n h
    unfold natToDigits
    by_cases hn : n < 10
    · rw [if_pos hn]
      refine ⟨by simp, ?_⟩
      intro c hc
      rw [List.mem_singleton] at hc
      subst hc
      exact ⟨(digitChar_spec n hn).1, (digitChar_spec n hn).2.1⟩
    · rw [if_neg hn]
      have hdiv : n / 10 < fuel := by
        have h1 : n / 10 < n := Nat.div_lt_self (by omega) (by omega)
        omega
      obtain ⟨hne, hmem⟩ := ih (n / 10) hdiv
      refine ⟨by simp [hne], ?_⟩
      intro c hc
      rcases List.mem_append.mp hc with hc | hc
      · exact hmem c hc
      · rw [List.mem_singleton] at hc
        subst hc
        have hm : n % 10 < 10 := Nat.mod_lt _ (by omega)
        exact ⟨(digitChar_spec _ hm).1, (digitChar_spec _ hm).2.1⟩

theorem digitsVal_append (acc : Nat) (l1 l2 : List Char) :
    digitsVal acc (l1 ++ l2) = digitsVal (digitsVal acc l1) l2 := by
  induction l1 generalizing acc with
  | nil => rfl
  | cons c rest ih =>
    rw [List.cons_append]
    exact ih (acc * 10 + (c.toNat - 48))

theorem natToDigits_val : ∀ fuel n acc, n < fuel →
    digitsVal acc (natToDigits fuel n) =
      acc * 10 ^ (natToDigits fuel n).length + n := by
  intro fuel
  induction fuel with
  | zero => intro n acc h; omega
  | succ fuel ih =>
    intro n acc h
    unfold natToDigits
    by_cases hn : n < 10
    · rw [if_pos hn]
      have h1 : digitsVal acc [digitChar n] = acc * 10 + ((digitChar n).toNat - 48) := rfl
      rw [h1, (digitChar_spec n hn).2.2]
      simp only [List.length_singleton, pow_one]
      omega
    · rw [if_neg hn]
      have hdiv : n / 10 < fuel := by
        have h1 : n / 10 < n := Nat.div_lt_self (by omega) (by omega)
        omega
      rw [digitsVal_append, ih (n / 10) acc hdiv]
      have hm : n % 10 < 10 := Nat.mod_lt _ (by omega)
      have h2 : ∀ a : Nat, digitsVal a [digitChar (n % 10)] =
          a * 10 + ((digitChar (n % 10)).toNat - 48) := fun a => rfl
      rw [h2, (digitChar_spec _ hm).2.2]
      simp only [List.length_append, List.length_singleton]
      have hmod := Nat.div_add_mod n 10
      have hpow : 10 ^ ((natToDigits fuel (n / 10)).length + 1) =
          10 ^ (natToDigits fuel (n / 10)).length * 10 := pow_succ 10 _
      rw [hpow]
      ring_nf
      omega

theorem isDigitCh_not_space {c : Char} (h : isDigitCh c = true) :
    isPySpace c = false := by
  simp only [isDigitCh, decide_eq_true_eq] at h
  simp only [isPySpace, decide_eq_true_eq]
  simp only [decide_eq_false_iff_not]
  omega

theorem pyIntStr_natToStr (p : Nat) :
    pyIntStr (natToStr p) = .ok (Int.ofNat p) := by
  obtain ⟨hne, hmem⟩ := natToDigits_spec (p + 1) p (Nat.lt_succ_self p)
  have hds : ∀ c ∈ natToDigits (p + 1) p, isDigitCh c = true :=
    fun c hc => (hmem c hc).2
  have hnospace : ∀ c ∈ natToDigits (p + 1) p, isPySpace c = false :=
    fun c hc => isDigitCh_not_space (hds c hc)
  have hstrip : stripChars (natToDigits (p + 1) p) = natToDigits (p + 1) p := by
    unfold stripChars
    rw [dropWhile_all_neg _ hnospace,
        dropWhile_all_neg _ (fun c hc => hnospace c (List.mem_reverse.mp hc)),
        List.reverse_reverse]
  unfold pyIntStr natToStr
  rw [show ((⟨natToDigits (p + 1) p⟩ : String).data) = natToDigits (p + 1) p from rfl,
      hstrip]
  cases hl : natToDigits (p + 1) p with
  | nil => exact absurd hl hne
  | cons c rest =>
    simp only [pyIntCore]
    have hcd : isDigitCh c = true := hds c (by rw [hl]; exact List.mem_cons_self _ _)
    have hcd48 : 48 ≤ c.toNat ∧ c.toNat ≤ 57 := by
      simpa [isDigitCh] using hcd
    have hminus : c ≠ '-' := by
      intro he
      rw [he] at hcd48
      revert hcd48
      decide
    have hplus : c ≠ '+' := by
      intro he
      rw [he] at hcd48
      revert hcd48
      decide
    rw [if_neg hminus, if_neg hplus,
        if_pos (by rw [← hl]; exact List.all_eq_true.mpr hds)]
    have hv : digitsVal 0 (c :: rest) = p := by
      rw [← hl, natToDigits_val (p + 1) p 0 (Nat.lt_succ_self p)]
      simp
    rw [hv]
    rfl

/-! ## Character-class bridging lemmas (C2) -/

theorem ne_of_toNat_lt {c d : Char} (h : d.toNat < c.toNat) : c ≠ d :=
  fun he => by rw [he] at h; omega

theorem uriSafe_gt {c : Char} (h : uriSafeCh c = true) : 0x20 < c.toNat := by
  simp only [uriSafeCh, decide_eq_true_eq] at h
  exact h.1

theorem uriSafe_ne {c : Char} (h : uriSafeCh c = true) (d : Char)
    (hd : d.toNat ∈ [35, 37, 38, 43, 47, 58, 59, 61, 63, 64, 91, 93]) :
    c ≠ d := by
  simp only [uriSafeCh, decide_eq_true_eq] at h
  intro he
  rw [he] at h
  exact h.2.2 hd

theorem uriSafe_notin {l : List Char} (h : l.all uriSafeCh = true) (d : Char)
    (hd : d.toNat ∈ [35, 37, 38, 43, 47, 58, 59, 61, 63, 64, 91, 93]) :
    d ∉ l :=
  fun hin => uriSafe_ne (List.all_eq_true.mp h d hin) d hd rfl

theorem digits_all_safe (p : Nat) : ∀ c ∈ natToDigits (p + 1) p, uriSafeCh c = true :=
  fun c hc => ((natToDigits_spec (p + 1) p (Nat.lt_succ_self p)).2 c hc).1

theorem digits_notin (p : Nat) (d : Char)
    (hd : d.toNat ∈ [35, 37, 38, 43, 47, 58, 59, 61, 63, 64, 91, 93]) :
    d ∉ natToDigits (p + 1) p :=
  fun hin => uriSafe_ne (digits_all_safe p _ hin) d hd rfl

/-! ## `urlsplit` on the encoder's trojan URI (C2) -/

/-- Character data of the encoder's trojan URI, as one append chain. -/
theorem trojanUri_data (pw sv nm : String) (p : Nat) :
    ("trojan://" ++ pw ++ "@" ++ sv ++ ":" ++ natToStr p ++ "?sni=" ++ nm).data
      = ['t', 'r', 'o', 'j', 'a', 'n', ':', '/', '/'] ++ pw.data ++ ['@'] ++
        sv.data ++ [':'] ++ natToDigits (p + 1) p ++ ['?', 's', 'n', 'i', '='] ++
        nm.data := by
  simp [natToStr]

/-- `urlClean` leaves the trojan URI untouched: every character is above
space. -/
theorem trojanUri_clean (pw sv nm : String) (p : Nat)
    (hpw : uriSafeStr pw = true) (hsv : uriSafeStr sv = true)
    (hnm : uriSafeStr nm = true) :
    urlClean ("trojan://" ++ pw ++ "@" ++ sv ++ ":" ++ natToStr p ++ "?sni=" ++ nm)
      = ("trojan://" ++ pw ++ "@" ++ sv ++ ":" ++ natToStr p ++ "?sni=" ++ nm).data := by
  have hallgt : ∀ c ∈ ("trojan://" ++ pw ++ "@" ++ sv ++ ":" ++ natToStr p ++ "?sni=" ++ nm).data,
      0x20 < c.toNat := by
    rw [trojanUri_data]
    intro c hc
    rcases List.mem_append.mp hc with hc | hc
    rotate_left
    · exact uriSafe_gt (List.all_eq_true.mp hnm c hc)
    rcases List.mem_append.mp hc with hc | hc
    rotate_left
    · fin_cases hc <;> decide
    rcases List.mem_append.mp hc with hc | hc
    rotate_left
    · exact uriSafe_gt (digits_all_safe p c hc)
    rcases List.mem_append.mp hc with hc | hc
    rotate_left
    · fin_cases hc <;> decide
    rcases List.mem_append.mp hc with hc | hc
    rotate_left
    · exact uriSafe_gt (List.all_eq_true.mp hsv c hc)
    rcases List.mem_append.mp hc with hc | hc
    rotate_left
    · fin_cases hc <;> decide
    rcases List.mem_append.mp hc with hc | hc
    · fin_cases hc <;> decide
    · exact uriSafe_gt (List.all_eq_true.mp hpw c hc)
  have h1 : List.dropWhile isC0OrSpace
      ("trojan://" ++ pw ++ "@" ++ sv ++ ":" ++ natToStr p ++ "?sni=" ++ nm).data
      = ("trojan://" ++ pw ++ "@" ++ sv ++ ":" ++ natToStr p ++ "?sni=" ++ nm).data :=
    dropWhile_all_neg _ (fun c hc => by
      simp only [isC0OrSpace, decide_eq_false_iff_not, not_le]
      exact hallgt c hc)
  have h2 : List.dropWhile isC0OrSpace
      ("trojan://" ++ pw ++ "@" ++ sv ++ ":" ++ natToStr p ++ "?sni=" ++ nm).data.reverse
      = ("trojan://" ++ pw ++ "@" ++ sv ++ ":" ++ natToStr p ++ "?sni=" ++ nm).data.reverse :=
    dropWhile_all_neg _ (fun c hc => by
      simp only [isC0OrSpace, decide_eq_false_iff_not, not_le]
      exact hallgt c (List.mem_reverse.mp hc))
  unfold urlClean
  rw [h1, h2, List.reverse_reverse,
      filter_all_pos _ (fun c hc => by
        have hg := hallgt c hc
        simp only [decide_eq_true_eq]
        refine ⟨ne_of_toNat_lt ?_, ne_of_toNat_lt ?_, ne_of_toNat_lt ?_⟩
        · show ('\t').toNat < c.toNat
          rw [show ('\t').toNat = 9 from rfl]
          omega
        · show ('\r').toNat < c.toNat
          rw [show ('\r').toNat = 13 from rfl]
          omega
        · show ('\n').toNat < c.toNat
          rw [show ('\n').toNat = 10 from rfl]
          omega)]

/-- The decomposition `urlsplit` performs on the encoder's trojan URI. -/
theorem urlsplit_trojan (pw sv nm : String) (p : Nat)
    (hpw : uriSafeStr pw = true) (hsv : uriSafeStr sv = true)
    (hnm : uriSafeStr nm = true) :
    urlsplitModel ("trojan://" ++ pw ++ "@" ++ sv ++ ":" ++ natToStr p ++ "?sni=" ++ nm) =
      ⟨"trojan", ⟨pw.data ++ '@' :: (sv.data ++ ':' :: natToDigits (p + 1) p)⟩, "",
       ⟨'s' :: 'n' :: 'i' :: '=' :: nm.data⟩, ""⟩ := by
  have hshape1 :
      (['t', 'r', 'o', 'j', 'a', 'n', ':', '/', '/'] ++ pw.data ++ ['@'] ++
        sv.data ++ [':'] ++ natToDigits (p + 1) p ++ ['?', 's', 'n', 'i', '='] ++
        nm.data : List Char)
      = ['t', 'r', 'o', 'j', 'a', 'n'] ++ ':' ::
          ('/' :: '/' :: (pw.data ++ ['@'] ++ sv.data ++ [':'] ++ natToDigits (p + 1) p ++
            ('?' :: 's' :: 'n' :: 'i' :: '=' :: nm.data))) := by
    simp
  have hpred : ∀ c ∈ pw.data ++ ['@'] ++ sv.data ++ [':'] ++ natToDigits (p + 1) p,
      (fun c => decide (c ≠ '/' ∧ c ≠ '?' ∧ c ≠ '#')) c = true := by
    intro c hc
    simp only [decide_eq_true_eq]
    rcases List.mem_append.mp hc with hc | hc
    rotate_left
    · exact ⟨uriSafe_ne (digits_all_safe p c hc) '/' (by decide),
             uriSafe_ne (digits_all_safe p c hc) '?' (by decide),
             uriSafe_ne (digits_all_safe p c hc) '#' (by decide)⟩
    rcases List.mem_append.mp hc with hc | hc
    rotate_left
    · fin_cases hc
      exact ⟨by decide, by decide, by decide⟩
    rcases List.mem_append.mp hc with hc | hc
    rotate_left
    · have hs := List.all_eq_true.mp hsv c hc
      exact ⟨uriSafe_ne hs '/' (by decide), uriSafe_ne hs '?' (by decide),
             uriSafe_ne hs '#' (by decide)⟩
    rcases List.mem_append.mp hc with hc | hc
    · have hs := List.all_eq_true.mp hpw c hc
      exact ⟨uriSafe_ne hs '/' (by decide), uriSafe_ne hs '?' (by decide),
             uriSafe_ne hs '#' (by decide)⟩
    · fin_cases hc
      exact ⟨by decide, by decide, by decide⟩
  have hnotfrag : '#' ∉ ('?' :: 's' :: 'n' :: 'i' :: '=' :: nm.data : List Char) := by
    simp only [List.mem_cons]
    push_neg
    refine ⟨by decide, by decide, by decide, by decide, by decide, ?_⟩
    exact uriSafe_notin hnm '#' (by decide)
  unfold urlsplitModel
  rw [trojanUri_clean pw sv nm p hpw hsv hnm, trojanUri_data, hshape1]
  dsimp only
  rw [splitFirstSub_char _ _ _ (by decide)]
  simp only
  rw [if_pos (by decide)]
  rw [show (['t', 'r', 'o', 'j', 'a', 'n'].map Char.toLower) = ['t', 'r', 'o', 'j', 'a', 'n']
      from rfl]
  rw [show listStartsWith
      ('/' :: '/' :: (pw.data ++ ['@'] ++ sv.data ++ [':'] ++ natToDigits (p + 1) p ++
        ('?' :: 's' :: 'n' :: 'i' :: '=' :: nm.data))) ['/', '/'] = true from by
    simp [listStartsWith]]
  simp only [if_true]
  rw [show List.drop 2
      ('/' :: '/' :: (pw.data ++ ['@'] ++ sv.data ++ [':'] ++ natToDigits (p + 1) p ++
        ('?' :: 's' :: 'n' :: 'i' :: '=' :: nm.data)))
      = pw.data ++ ['@'] ++ sv.data ++ [':'] ++ natToDigits (p + 1) p ++
        ('?' :: 's' :: 'n' :: 'i' :: '=' :: nm.data) from rfl]
  rw [takeWhile_append_all _ _ hpred, dropWhile_append_all _ _ hpred]
  rw [show List.takeWhile (fun c => decide (c ≠ '/' ∧ c ≠ '?' ∧ c ≠ '#'))
      ('?' :: 's' :: 'n' :: 'i' :: '=' :: nm.data) = [] from by
    simp [List.takeWhile]]
  rw [show List.dropWhile (fun c => decide (c ≠ '/' ∧ c ≠ '?' ∧ c ≠ '#'))
      ('?' :: 's' :: 'n' :: 'i' :: '=' :: nm.data)
      = '?' :: 's' :: 'n' :: 'i' :: '=' :: nm.data from by
    simp [List.dropWhile]]
  rw [splitFirstSub_not_mem _ _ hnotfrag]
  rw [show splitFirstSub ('?' :: 's' :: 'n' :: 'i' :: '=' :: nm.data) ['?']
      = some ([], 's' :: 'n' :: 'i' :: '=' :: nm.data) from rfl]
  simp only [List.append_nil]
  congr 1
  · simp

/-- `'@'` occurs nowhere in the host-and-port tail of the netloc. -/
theorem trojan_at_notin (sv : String) (p : Nat) (hsv : uriSafeStr sv = true) :
    '@' ∉ (sv.data ++ ':' :: natToDigits (p + 1) p : List Char) := by
  intro hin
  rcases List.mem_append.mp hin with hin | hin
  · exact uriSafe_notin hsv '@' (by decide) hin
  · rcases List.mem_cons.mp hin with hin | hin
    · cases hin
    · exact digits_notin p '@' (by decide) hin

/-- `username`/`password` of the trojan netloc: the password payload and
no colon-password. -/
theorem trojan_userinfo (sch pa q f pw sv : String) (p : Nat)
    (hpw : uriSafeStr pw = true) (hsv : uriSafeStr sv = true) :
    upUserinfo ⟨sch, ⟨pw.data ++ '@' :: (sv.data ++ ':' :: natToDigits (p + 1) p)⟩, pa, q, f⟩
      = (some pw, Option.none) := by
  unfold upUserinfo
  rw [show ((⟨pw.data ++ '@' :: (sv.data ++ ':' :: natToDigits (p + 1) p)⟩ : String).data)
      = pw.data ++ '@' :: (sv.data ++ ':' :: natToDigits (p + 1) p) from rfl]
  rw [splitLastChar_char _ _ _ (trojan_at_notin sv p hsv)]
  dsimp only
  rw [splitFirstSub_not_mem _ _ (uriSafe_notin hpw ':' (by decide))]

/-- `hostname`/port-text of the trojan netloc. -/
theorem trojan_hostinfo (sch pa q f pw sv : String) (p : Nat)
    (hpw : uriSafeStr pw = true) (hsv : uriSafeStr sv = true)
    (hsvne : sv ≠ "") :
    upHostinfo ⟨sch, ⟨pw.data ++ '@' :: (sv.data ++ ':' :: natToDigits (p + 1) p)⟩, pa, q, f⟩
      = (some sv, some (natToStr p)) := by
  have hsvdata : sv.data ≠ [] := by
    intro h
    exact hsvne (by rw [← show ((⟨sv.data⟩ : String)) = sv from rfl, h])
  have hdne : natToDigits (p + 1) p ≠ [] :=
    (natToDigits_spec (p + 1) p (Nat.lt_succ_self p)).1
  unfold upHostinfo
  rw [show ((⟨pw.data ++ '@' :: (sv.data ++ ':' :: natToDigits (p + 1) p)⟩ : String).data)
      = pw.data ++ '@' :: (sv.data ++ ':' :: natToDigits (p + 1) p) from rfl]
  rw [splitLastChar_char _ _ _ (trojan_at_notin sv p hsv)]
  dsimp only
  have hbr : '[' ∉ (sv.data ++ ':' :: natToDigits (p + 1) p : List Char) := by
    intro hin
    rcases List.mem_append.mp hin with hin | hin
    · exact uriSafe_notin hsv '[' (by decide) hin
    · rcases List.mem_cons.mp hin with hin | hin
      · cases hin
      · exact digits_notin p '[' (by decide) hin
  rw [splitFirstSub_not_mem _ _ hbr]
  dsimp only
  rw [splitFirstSub_char _ _ _ (uriSafe_notin hsv ':' (by decide))]
  dsimp only
  rw [if_neg (by simpa using hsvdata), if_neg (by simpa using hdne)]
  rfl

/-- `parsed.port` of the trojan netloc parses back to `p`. -/
theorem trojan_upPort (sch pa q f pw sv : String) (p : Nat)
    (hpw : uriSafeStr pw = true) (hsv : uriSafeStr sv = true)
    (hsvne : sv ≠ "") (hp : p ≤ 65535) :
    upPort ⟨sch, ⟨pw.data ++ '@' :: (sv.data ++ ':' :: natToDigits (p + 1) p)⟩, pa, q, f⟩
      = .ok (some (Int.ofNat p)) := by
  unfold upPort
  rw [trojan_hostinfo sch pa q f pw sv p hpw hsv hsvne]
  simp only
  rw [pyIntStr_natToStr]
  simp only [bind, Except.bind]
  rw [if_pos ⟨Int.ofNat_nonneg p, by
    rw [show (65535 : Int) = Int.ofNat 65535 from rfl]
    exact Int.ofNat_le.mpr hp⟩]

/-- `parsed.hostname` of the trojan netloc is the (lowercase) server. -/
theorem trojan_upHostname (sch pa q f pw sv : String) (p : Nat)
    (hpw : uriSafeStr pw = true) (hsv : uriSafeStr sv = true)
    (hsvne : sv ≠ "") (hlow : sv.data.map Char.toLower = sv.data) :
    upHostname ⟨sch, ⟨pw.data ++ '@' :: (sv.data ++ ':' :: natToDigits (p + 1) p)⟩, pa, q, f⟩
      = some sv := by
  unfold upHostname
  rw [trojan_hostinfo sch pa q f pw sv p hpw hsv hsvne]
  rw [show Option.map lowerStr (some sv) = some (lowerStr sv) from rfl]
  unfold lowerStr
  rw [hlow]

/-- `unquote_plus` is the identity on URI-safe strings. -/
theorem unquotePlus_safe (s : String) (hs : uriSafeStr s = true) :
    pyUnquotePlus s = s := by
  unfold pyUnquotePlus
  have hmap : s.data.map (fun c => if c = '+' then ' ' else c) = s.data := by
    conv_rhs => rw [← List.map_id s.data]
    exact List.map_congr_left (fun c hc =>
      if_neg (uriSafe_ne (List.all_eq_true.mp hs c hc) '+' (by decide)))
  unfold pyUnquote
  rw [show ((⟨s.data.map (fun c => if c = '+' then ' ' else c)⟩ : String).data)
      = s.data.map (fun c => if c = '+' then ' ' else c) from rfl, hmap]
  rw [unquoteAux_no_escape _ _
    (fun c hc => uriSafe_ne (List.all_eq_true.mp hs c hc) '%' (by decide))
    (Nat.le_refl _)]

/-- `parse_qsl` of the encoder's query is the single `sni` pair. -/
theorem parseQsl_trojan (nm : String) (hnm : uriSafeStr nm = true)
    (hne : nm ≠ "") :
    parseQsl ⟨'s' :: 'n' :: 'i' :: '=' :: nm.data⟩ = [("sni", nm)] := by
  have hamp : '&' ∉ ('s' :: 'n' :: 'i' :: '=' :: nm.data : List Char) := by
    simp only [List.mem_cons]
    push_neg
    exact ⟨by decide, by decide, by decide, by decide,
           uriSafe_notin hnm '&' (by decide)⟩
  unfold parseQsl strSplitAll
  rw [show ((⟨'s' :: 'n' :: 'i' :: '=' :: nm.data⟩ : String).data)
      = 's' :: 'n' :: 'i' :: '=' :: nm.data from rfl]
  rw [splitAllChar_not_mem _ _ hamp]
  simp only [List.map_cons, List.map_nil, List.foldr_cons, List.foldr_nil]
  rw [if_neg (by
    intro h
    have := congrArg String.data h
    simp at this)]
  unfold strSplit1
  rw [show ((⟨'s' :: 'n' :: 'i' :: '=' :: nm.data⟩ : String).data)
      = ['s', 'n', 'i'] ++ '=' :: nm.data from rfl]
  rw [splitFirstSub_char _ _ _ (by decide)]
  simp only
  rw [if_neg (by
    intro h
    have := congrArg String.data h
    simp at this
    exact hne (by rw [← show ((⟨nm.data⟩ : String)) = nm from rfl, this]))]
  rw [show ((⟨['s', 'n', 'i']⟩ : String)) = "sni" from rfl,
      show ((⟨nm.data⟩ : String)) = nm from rfl]
  rw [show pyUnquotePlus "sni" = "sni" from rfl, unquotePlus_safe nm hnm]

/-- Python `x or ''` with a present value is the value itself. -/
theorem pyOrStr_empty (s : String) : pyOrStr (some s) "" = s := by
  by_cases h : s = "" <;> simp [pyOrStr, h]

/-- **C2** (amended): for trojan nodes with URI-safe field strings and a
port in `[1, 65535]`, `parse_v2ray_uri (node_to_v2ray_uri node)`
reproduces the node exactly — name, server, port and password all
round-trip. (The original claim fails for other kinds; see the hysteria
counterexample.) -/
theorem c2_trojan_roundtrip (jl : JsonLoads) (nm sv pw : String) (p : Nat)
    (hnm : uriSafeStr nm = true) (hnmne : nm ≠ "")
    (hsv : uriSafeStr sv = true) (hsvne : sv ≠ "")
    (hsvlow : sv.data.map Char.toLower = sv.data)
    (hpw : uriSafeStr pw = true)
    (hp1 : 1 ≤ p) (hp2 : p ≤ 65535) :
    node_to_v2ray_uri (mkTrojanNode nm sv pw p) =
      .ok (some ("trojan://" ++ pw ++ "@" ++ sv ++ ":" ++ natToStr p ++ "?sni=" ++ nm)) ∧
    parse_v2ray_uri jl ("trojan://" ++ pw ++ "@" ++ sv ++ ":" ++ natToStr p ++ "?sni=" ++ nm) =
      some (mkTrojanNode nm sv pw p) := by
  constructor
  · simp [node_to_v2ray_uri, mkTrojanNode, pyDictReq, alistGet, pyEqStr, pyStr,
      intToStr, bind, Except.bind, pure, Except.pure]
  · have hvm : strStartsWith
        ("trojan://" ++ pw ++ "@" ++ sv ++ ":" ++ natToStr p ++ "?sni=" ++ nm)
        "vmess://" = false := by
      unfold strStartsWith
      rw [trojanUri_data]
      rfl
    have htr : strStartsWith
        ("trojan://" ++ pw ++ "@" ++ sv ++ ":" ++ natToStr p ++ "?sni=" ++ nm)
        "trojan://" = true := by
      unfold strStartsWith
      rw [trojanUri_data]
      exact listStartsWith_append ['t', 'r', 'o', 'j', 'a', 'n', ':', '/', '/'] _
    have hsni : ∀ d, qsGetD (⟨'s' :: 'n' :: 'i' :: '=' :: nm.data⟩ : String) "sni" d = nm := by
      intro d
      unfold qsGetD
      rw [parseQsl_trojan nm hnm hnmne]
      rfl
    have hporti : pyOrInt (some (Int.ofNat p)) 443 = Int.ofNat p := by
      unfold pyOrInt
      dsimp only
      rw [if_neg (by
        intro h
        rw [show ((0 : Int)) = Int.ofNat 0 from rfl] at h
        have := Int.ofNat.inj h
        omega)]
    unfold parse_v2ray_uri parse_v2ray_uri_exc parse_v2ray_uri_body
    rw [if_neg (by rw [hvm]; exact Bool.false_ne_true), if_pos htr]
    rw [urlsplit_trojan pw sv nm p hpw hsv hnm]
    dsimp only
    rw [hsni, trojan_upPort "trojan" "" ⟨'s' :: 'n' :: 'i' :: '=' :: nm.data⟩ ""
          pw sv p hpw hsv hsvne hp2]
    simp only [bind, Except.bind]
    have huser : upUsername ⟨"trojan",
        ⟨pw.data ++ '@' :: (sv.data ++ ':' :: natToDigits (p + 1) p)⟩, "",
        ⟨'s' :: 'n' :: 'i' :: '=' :: nm.data⟩, ""⟩ = some pw := by
      unfold upUsername
      rw [trojan_userinfo "trojan" "" ⟨'s' :: 'n' :: 'i' :: '=' :: nm.data⟩ ""
            pw sv p hpw hsv]
    rw [huser]
    rw [trojan_upHostname "trojan" "" ⟨'s' :: 'n' :: 'i' :: '=' :: nm.data⟩ ""
          pw sv p hpw hsv hsvne hsvlow]
    rw [hporti]
    rw [pyOrStr_empty sv, pyOrStr_empty pw]
    rfl

/-- Witness for `c2_trojan_roundtrip` at the node `{n, h, 443, pw}`. -/
theorem c2_trojan_roundtrip_witness :
    node_to_v2ray_uri (mkTrojanNode "n" "h" "pw" 443) =
      .ok (some ("trojan://" ++ "pw" ++ "@" ++ "h" ++ ":" ++ natToStr 443 ++ "?sni=" ++ "n")) ∧
    parse_v2ray_uri jlNever
        ("trojan://" ++ "pw" ++ "@" ++ "h" ++ ":" ++ natToStr 443 ++ "?sni=" ++ "n") =
      some (mkTrojanNode "n" "h" "pw" 443) :=
  c2_trojan_roundtrip jlNever "n" "h" "pw" 443 (by decide) (by decide) (by decide)
    (by decide) (by decide) (by decide) (by decide) (by decide)
